import Mathlib

/-!
Verification of the NYC-taxi ingestion pipeline (`nyc-taxi-ingestion-s3`)
against its natural-language specification.

The development shallowly embeds the Python sources:
* `core/models.py`      : `FileIdentity` and its `stable_key` dedup key;
* `core/pipeline.py`    : `IngestionPipeline.run`, with the external
  collaborators (finder, uploader, archiver, load-log repository) modelled
  as oracles that either return a value or raise an exception;
* `infra/s3_uploader.py`: `S3Uploader.build_s3_key` / `S3Uploader.upload`;
* `infra/local_archiver.py` : `ArchiveLocalFiles.archive`;
* `infra/snowflake_system_event_log.py` : the event-row shape written by
  `_insert_event` and the `already_loaded` dedup query.

Exceptions are modelled by an `Outcome` type carrying the Python
`str(e)` of the raised exception; a raising emission writes no row.
-/

namespace NycTaxi

/-- Result of one Python call: either a returned value or a raised
exception carrying its string representation `str(e)`. -/
inductive Outcome (α : Type) where
  | ok (a : α)
  | exn (e : String)
deriving DecidableEq, Repr

/-- Little-endian base-10 digit list of `n`, with explicit fuel so the
recursion is structural (kernel-computable).  With `n ≤ fuel` this
agrees with `Nat.digits 10 n` (proved below). -/
def natDigitsRev (fuel n : Nat) : List Nat :=
  match fuel with
  | 0 => []
  | fuel + 1 => if n = 0 then [] else n % 10 :: natDigitsRev fuel (n / 10)

/-- Decimal representation of a natural number, as produced by Python
`str(int)` (and `f"{n}"` formatting) for non-negative values: most
significant digit first, and `"0"` for zero. -/
def natRepr (n : Nat) : String :=
  if n = 0 then "0" else String.mk (((natDigitsRev n n).map Nat.digitChar).reverse)

theorem natDigitsRev_eq_digits :
    ∀ fuel n, n ≤ fuel → natDigitsRev fuel n = Nat.digits 10 n := by
  intro fuel
  induction fuel with
  | zero => intro n hn; interval_cases n; simp [natDigitsRev, Nat.digits_zero]
  | succ fuel ih =>
    intro n hn
    by_cases h0 : n = 0
    · rw [h0]; simp [natDigitsRev, Nat.digits_zero]
    · have hpos : 0 < n := Nat.pos_of_ne_zero h0
      rw [natDigitsRev, if_neg h0, Nat.digits_def' (by norm_num : 1 < 10) hpos]
      have hdiv : n / 10 ≤ fuel := by
        have := Nat.div_lt_self hpos (by norm_num : 1 < 10)
        omega
      rw [ih (n / 10) hdiv]

theorem natRepr_eq_digits (n : Nat) :
    natRepr n = if n = 0 then "0"
      else String.mk (((Nat.digits 10 n).map Nat.digitChar).reverse) := by
  unfold natRepr
  rw [natDigitsRev_eq_digits n n (le_refl n)]

/-- Decimal representation of an integer, as produced by Python
`str(int)`: a minus sign followed by the digits for negative values. -/
def intRepr (i : Int) : String :=
  if i < 0 then "-" ++ natRepr (-i).toNat else natRepr i.toNat

theorem digitChar_inj_lt :
    ∀ d, d < 10 → ∀ e, e < 10 → Nat.digitChar d = Nat.digitChar e → d = e := by
  decide

theorem digitChar_ne_of_lt :
    ∀ d, d < 10 → Nat.digitChar d ≠ '-' ∧ Nat.digitChar d ≠ '|' := by
  decide

theorem map_digitChar_inj :
    ∀ (l₁ l₂ : List Nat), (∀ d ∈ l₁, d < 10) → (∀ d ∈ l₂, d < 10) →
      l₁.map Nat.digitChar = l₂.map Nat.digitChar → l₁ = l₂ := by
  intro l₁
  induction l₁ with
  | nil => intro l₂ _ _ h; cases l₂ <;> simp_all
  | cons a t ih =>
    intro l₂ h₁ h₂ h
    cases l₂ with
    | nil => simp_all
    | cons b t₂ =>
      simp only [List.map_cons, List.cons.injEq] at h
      have ha : a < 10 := h₁ a (List.mem_cons_self _ _)
      have hb : b < 10 := h₂ b (List.mem_cons_self _ _)
      have hab : a = b := digitChar_inj_lt a ha b hb h.1
      have ht : t = t₂ := ih t₂ (fun d hd => h₁ d (List.mem_cons_of_mem _ hd))
        (fun d hd => h₂ d (List.mem_cons_of_mem _ hd)) h.2
      rw [hab, ht]

theorem natRepr_rev_singleton {b : Nat} (hb : b ≠ 0)
    (h : ((Nat.digits 10 b).map Nat.digitChar).reverse = ['0']) : False := by
  have hmapeq : (Nat.digits 10 b).map Nat.digitChar = [Nat.digitChar 0] := by
    have := congrArg List.reverse h
    simpa using this
  have hdig : Nat.digits 10 b = [0] :=
    map_digitChar_inj _ [0] (fun d hd => Nat.digits_lt_base (by norm_num) hd)
      (by simp) hmapeq
  have hof := Nat.ofDigits_digits 10 b
  rw [hdig] at hof
  simp [Nat.ofDigits] at hof
  exact hb hof.symm

theorem natRepr_injective : Function.Injective natRepr := by
  intro a b h
  rw [natRepr_eq_digits, natRepr_eq_digits] at h
  by_cases ha : a = 0 <;> by_cases hb : b = 0
  · rw [ha, hb]
  · exfalso
    simp only [ha, hb, if_true, if_false] at h
    have hdata : ((Nat.digits 10 b).map Nat.digitChar).reverse = ['0'] := by
      have := congrArg String.data h
      simpa using this.symm
    exact natRepr_rev_singleton hb hdata
  · exfalso
    simp only [ha, hb, if_true, if_false] at h
    have hdata : ((Nat.digits 10 a).map Nat.digitChar).reverse = ['0'] := by
      have := congrArg String.data h
      simpa using this
    exact natRepr_rev_singleton ha hdata
  · simp only [ha, hb, if_false] at h
    have hdata := congrArg String.data h
    simp only [String.mk] at hdata
    have hrev := List.reverse_injective hdata
    have hmap := map_digitChar_inj _ _
      (fun d hd => Nat.digits_lt_base (by norm_num) hd)
      (fun d hd => Nat.digits_lt_base (by norm_num) hd) hrev
    exact Nat.digits.injective 10 hmap

theorem natRepr_mem_ne (n : Nat) :
    ∀ c ∈ (natRepr n).data, c ≠ '-' ∧ c ≠ '|' := by
  intro c hc
  rw [natRepr_eq_digits] at hc
  by_cases hn : n = 0
  · simp only [hn, if_true] at hc
    simp only [List.mem_singleton] at hc
    rw [hc]; exact ⟨by decide, by decide⟩
  · rw [if_neg hn] at hc
    simp only [String.mk] at hc
    rw [List.mem_reverse, List.mem_map] at hc
    obtain ⟨d, hd, hdc⟩ := hc
    rw [← hdc]
    exact digitChar_ne_of_lt d (Nat.digits_lt_base (by norm_num) hd)

theorem intRepr_injective : Function.Injective intRepr := by
  intro i j h
  unfold intRepr at h
  by_cases hi : i < 0 <;> by_cases hj : j < 0
  · rw [if_pos hi, if_pos hj] at h
    have hdata := congrArg String.data h
    simp only [String.data_append] at hdata
    simp only [List.singleton_append, List.cons.injEq, true_and] at hdata
    have := natRepr_injective (String.ext hdata)
    omega
  · rw [if_pos hi, if_neg hj] at h
    exfalso
    have hdata := congrArg String.data h
    simp only [String.data_append] at hdata
    simp only [List.singleton_append] at hdata
    have hmem : ('-' : Char) ∈ (natRepr j.toNat).data := by
      rw [← hdata]; exact List.mem_cons_self _ _
    exact (natRepr_mem_ne j.toNat '-' hmem).1 rfl
  · rw [if_neg hi, if_pos hj] at h
    exfalso
    have hdata := congrArg String.data h
    simp only [String.data_append] at hdata
    simp only [List.singleton_append] at hdata
    have hmem : ('-' : Char) ∈ (natRepr i.toNat).data := by
      rw [hdata]; exact List.mem_cons_self _ _
    exact (natRepr_mem_ne i.toNat '-' hmem).1 rfl
  · rw [if_neg hi, if_neg hj] at h
    have := natRepr_injective h
    omega

/-- `core/models.py` `FileIdentity`: immutable descriptor of a discovered
file.  `path` is the full file path; `modified_time_us` models the
`datetime` attribute as exact microseconds since the epoch (so
`modified_time.timestamp()` is `modified_time_us / 10^6` as a real). -/
structure FileIdentity where
  path : String
  size_bytes : Int
  modified_time_us : Int
deriving DecidableEq, Repr

/-- Split a character list at the path separator. -/
def pathComponents : List Char → List Char → List (List Char)
  | [], acc => [acc.reverse]
  | c :: cs, acc =>
      if c = '/' then acc.reverse :: pathComponents cs []
      else pathComponents cs (c :: acc)

/-- `pathlib.Path.name` for an ordinary file path: the final non-empty
component after splitting on the path separator. -/
def pathName (p : String) : String :=
  String.mk (((pathComponents p.data []).filter (fun l => !l.isEmpty)).getLastD [])

/-- `FileIdentity.name` property: the file name without the directory. -/
def FileIdentity.name (f : FileIdentity) : String :=
  pathName f.path

/-- Python `int(self.modified_time.timestamp())`: the timestamp in
seconds truncated toward zero, i.e. T-division of the microsecond
count by `10^6`. -/
def FileIdentity.epochSeconds (f : FileIdentity) : Int :=
  f.modified_time_us.tdiv 1000000

/-- `core/models.py` `FileIdentity.stable_key`: the pipe-separated
dedup key `f"{self.name}|{self.size_bytes}|{int(self.modified_time.timestamp())}"`. -/
def FileIdentity.stable_key (f : FileIdentity) : String :=
  f.name ++ "|" ++ intRepr f.size_bytes ++ "|" ++ intRepr f.epochSeconds

example : pathName "nyc_taxi/ingestion/app/data_files/taxi_zone_lookup.csv" = "taxi_zone_lookup.csv" := by decide

example :
    (FileIdentity.mk "data/taxi_zone_lookup.csv" 12345 1767285799000000).stable_key
      = "taxi_zone_lookup.csv|12345|1767285799" := by decide

theorem stable_key_data (f : FileIdentity) :
    f.stable_key.data =
      f.name.data ++ '|' ::
        ((intRepr f.size_bytes).data ++ '|' :: (intRepr f.epochSeconds).data) := by
  simp [FileIdentity.stable_key, String.data_append, List.append_assoc]

/-- C8: `stable_key` is a pure function of the triple
(name, size, modification-time-truncated-to-seconds) — identical triples
give identical keys — and changing exactly one of the three components
while holding the other two fixed changes the key. -/
theorem stable_key_characterization (f g : FileIdentity) :
    (f.name = g.name ∧ f.size_bytes = g.size_bytes ∧ f.epochSeconds = g.epochSeconds →
      f.stable_key = g.stable_key) ∧
    (f.name ≠ g.name ∧ f.size_bytes = g.size_bytes ∧ f.epochSeconds = g.epochSeconds →
      f.stable_key ≠ g.stable_key) ∧
    (f.name = g.name ∧ f.size_bytes ≠ g.size_bytes ∧ f.epochSeconds = g.epochSeconds →
      f.stable_key ≠ g.stable_key) ∧
    (f.name = g.name ∧ f.size_bytes = g.size_bytes ∧ f.epochSeconds ≠ g.epochSeconds →
      f.stable_key ≠ g.stable_key) := by
  refine ⟨?_, ?_, ?_, ?_⟩
  · rintro ⟨hn, hs, he⟩
    unfold FileIdentity.stable_key
    rw [hn, hs, he]
  · rintro ⟨hn, hs, he⟩ hkey
    have hdata := congrArg String.data hkey
    rw [stable_key_data, stable_key_data, hs, he] at hdata
    exact hn (String.ext (List.append_cancel_right hdata))
  · rintro ⟨hn, hs, he⟩ hkey
    have hdata := congrArg String.data hkey
    rw [stable_key_data, stable_key_data, hn, he] at hdata
    have h1 := List.append_cancel_left hdata
    simp only [List.cons.injEq, true_and] at h1
    exact hs (intRepr_injective (String.ext (List.append_cancel_right h1)))
  · rintro ⟨hn, hs, he⟩ hkey
    have hdata := congrArg String.data hkey
    rw [stable_key_data, stable_key_data, hn, hs] at hdata
    have h1 := List.append_cancel_left hdata
    simp only [List.cons.injEq, true_and] at h1
    have h2 := List.append_cancel_left h1
    simp only [List.cons.injEq, true_and] at h2
    exact he (intRepr_injective (String.ext h2))

/-- Witness for C8 at concrete inputs: two files differing only in name
get different keys, and a pair of identical triples gets the same key. -/
theorem stable_key_characterization_witness :
    (FileIdentity.mk "data/a.csv" 100 1500000).stable_key ≠
      (FileIdentity.mk "data/b.csv" 100 1500000).stable_key :=
  (stable_key_characterization
      (FileIdentity.mk "data/a.csv" 100 1500000)
      (FileIdentity.mk "data/b.csv" 100 1500000)).2.1
    ⟨by decide, rfl, rfl⟩

/-- Value of a metadata dictionary entry.  `time` models
`modified_time.isoformat()` by the underlying timestamp (isoformat is
injective on datetimes); `strTuple` models the one-element tuple
`("stable_key",)` that the trailing comma in
`self.entity_id_mode: str = "stable_key",` produces in `__init__`. -/
inductive MetaVal where
  | str (s : String)
  | int (n : Int)
  | time (usec : Int)
  | strTuple (s : String)
deriving DecidableEq, Repr

/-- One call the pipeline makes against the `LoadLogRepository` port,
with exactly the arguments `IngestionPipeline.run` passes
(`core/pipeline.py`).  Each call appends one event to the audit trail. -/
inductive LogCall where
  | runStarted (event_id run_id component message : String)
      (metadata : List (String × MetaVal))
  | runFinished (event_id run_id component status message : String)
      (metadata : List (String × MetaVal))
  | ingestSuccess (event_id run_id component entity_id message : String)
      (metadata : List (String × MetaVal))
  | ingestFailure (event_id run_id component entity_id message : String)
      (error_code : Option String) (error_details : String)
      (metadata : List (String × MetaVal))
deriving DecidableEq, Repr

/-- Metadata of the run-started event in `run()`. -/
def startedMeta (component : String) : List (String × MetaVal) :=
  [("component", MetaVal.str component), ("entity_id_mode", MetaVal.strTuple "stable_key")]

/-- Metadata passed to `log_ingest_success` in `run()`. -/
def successMeta (f : FileIdentity) (destination : String) : List (String × MetaVal) :=
  [("file_name", MetaVal.str f.name), ("entity_id", MetaVal.str f.stable_key),
   ("size_bytes", MetaVal.int f.size_bytes), ("modified_time", MetaVal.time f.modified_time_us),
   ("destination", MetaVal.str destination)]

/-- Metadata passed to `log_ingest_failure` in `run()`. -/
def failureMeta (f : FileIdentity) : List (String × MetaVal) :=
  [("file_name", MetaVal.str f.name), ("entity_id", MetaVal.str f.stable_key),
   ("size_bytes", MetaVal.int f.size_bytes), ("modified_time", MetaVal.time f.modified_time_us)]

/-- Metadata of the run-finished event for a non-empty candidate list. -/
def finishedMeta (found new skipped succ fail : Nat) : List (String × MetaVal) :=
  [("files_found", MetaVal.int found), ("files_new", MetaVal.int new),
   ("files_skipped", MetaVal.int skipped), ("files_success", MetaVal.int succ),
   ("files_failure", MetaVal.int fail)]

/-- The pipeline's collaborators (ports) and its UUID source, modelled
as deterministic oracles.  `uuids` returns the value of the k-th
`uuid.uuid4()` call of the run (`run()` draws them strictly in source
order: run id, start event id, one per new file, finish event id).
Each `emit_*` oracle says whether the corresponding repository write
raises; a raising write appends nothing. -/
structure Collab where
  component : String
  uuids : Nat → String
  list_files : Outcome (List FileIdentity)
  already_loaded : List String → Outcome (List String)
  upload : FileIdentity → Outcome String
  archive : FileIdentity → Outcome Unit
  emit_run_started : Outcome Unit
  emit_run_finished : Outcome Unit
  emit_ingest_success : FileIdentity → Outcome Unit
  emit_ingest_failure : FileIdentity → Outcome Unit

/-- Observable trace of one `run()` invocation: the audit events
appended, the files on which `uploader.upload` / `archiver.archive`
were invoked, and the exception `run()` re-raised, if any
(`fatal = none` means `run()` returned normally). -/
structure RunTrace where
  events : List LogCall
  uploads : List FileIdentity
  archives : List FileIdentity
  fatal : Option String
deriving DecidableEq, Repr

/-- The `INGEST/SUCCESS` event logged for `f` (`run()` phase 4). -/
def succCall (c : Collab) (run_id event_id : String) (f : FileIdentity) (dest : String) : LogCall :=
  LogCall.ingestSuccess event_id run_id c.component f.stable_key
    ("Uploaded " ++ f.name) (successMeta f dest)

/-- The `INGEST/FAILURE` event logged for `f` (`run()` phase 4);
`error_details` is `str(e)` of the caught exception, `error_code` is
`None`. -/
def failCall (c : Collab) (run_id event_id : String) (f : FileIdentity) (e : String) : LogCall :=
  LogCall.ingestFailure event_id run_id c.component f.stable_key
    ("Failed to ingest " ++ f.name) none e (failureMeta f)

/-- The run-started event (`run()` phase 0). -/
def startCall (c : Collab) : LogCall :=
  LogCall.runStarted (c.uuids 1) (c.uuids 0) c.component "Pipeline run started"
    (startedMeta c.component)

/-- One iteration of the `for f in new_files` loop of `run()`: the
`try` block uploads, logs success and archives; `except Exception as e`
catches anything the `try` block raised — including an exception from
`log_ingest_success` or from `archive` — bumps the failure counter and
calls `log_ingest_failure` (whose own exception propagates).  Returns
the trace of the iteration and whether `success_count` was bumped. -/
def processFile (c : Collab) (run_id event_id : String) (f : FileIdentity) :
    RunTrace × Bool :=
  match c.upload f with
  | Outcome.exn e =>
      match c.emit_ingest_failure f with
      | Outcome.exn e2 =>
          ({ events := [], uploads := [f], archives := [], fatal := some e2 }, false)
      | Outcome.ok _ =>
          ({ events := [failCall c run_id event_id f e], uploads := [f], archives := [],
             fatal := none }, false)
  | Outcome.ok dest =>
      match c.emit_ingest_success f with
      | Outcome.exn e =>
          match c.emit_ingest_failure f with
          | Outcome.exn e2 =>
              ({ events := [], uploads := [f], archives := [], fatal := some e2 }, false)
          | Outcome.ok _ =>
              ({ events := [failCall c run_id event_id f e], uploads := [f], archives := [],
                 fatal := none }, false)
      | Outcome.ok _ =>
          match c.archive f with
          | Outcome.exn e =>
              match c.emit_ingest_failure f with
              | Outcome.exn e2 =>
                  ({ events := [succCall c run_id event_id f dest], uploads := [f],
                     archives := [f], fatal := some e2 }, false)
              | Outcome.ok _ =>
                  ({ events := [succCall c run_id event_id f dest,
                        failCall c run_id event_id f e],
                     uploads := [f], archives := [f], fatal := none }, false)
          | Outcome.ok _ =>
              ({ events := [succCall c run_id event_id f dest], uploads := [f],
                 archives := [f], fatal := none }, true)

/-- The `for f in new_files` loop of `run()`: processes files in order,
each iteration drawing one fresh event id (`c.uuids n` for the n-th
`uuid4()` call); accumulates success and failure counters.  A fatal
exception (from `log_ingest_failure`) aborts the remaining files. -/
def processLoop (c : Collab) (run_id : String) : Nat → List FileIdentity → RunTrace × Nat × Nat
  | _, [] => ({ events := [], uploads := [], archives := [], fatal := none }, 0, 0)
  | n, f :: fs =>
      let pr := processFile c run_id (c.uuids n) f
      match pr.1.fatal with
      | some e =>
          ({ events := pr.1.events, uploads := pr.1.uploads, archives := pr.1.archives,
             fatal := some e }, 0, 1)
      | none =>
          let rest := processLoop c run_id (n + 1) fs
          ({ events := pr.1.events ++ rest.1.events,
             uploads := pr.1.uploads ++ rest.1.uploads,
             archives := pr.1.archives ++ rest.1.archives,
             fatal := rest.1.fatal },
           (if pr.2 then 1 else 0) + rest.2.1,
           (if pr.2 then 0 else 1) + rest.2.2)

/-- Phase 3 of `run()`: `new_files = [f for f in files if f.stable_key not in loaded_ids]`. -/
def newFiles (fs : List FileIdentity) (loaded_ids : List String) : List FileIdentity :=
  fs.filter (fun f => decide (f.stable_key ∉ loaded_ids))

/-- `core/pipeline.py` `IngestionPipeline.run`: log run start, discover
files, short-circuit when none were found, bulk-check dedup keys,
filter to new files, process them sequentially, and log the finishing
summary event.  Any exception not caught inside the per-file loop makes
the trace fatal, with the events written so far. -/
def IngestionPipeline.run (c : Collab) : RunTrace :=
  let run_id := c.uuids 0
  match c.emit_run_started with
  | Outcome.exn e => { events := [], uploads := [], archives := [], fatal := some e }
  | Outcome.ok _ =>
    match c.list_files with
    | Outcome.exn e => { events := [startCall c], uploads := [], archives := [], fatal := some e }
    | Outcome.ok files =>
      if files.isEmpty then
        match c.emit_run_finished with
        | Outcome.exn e =>
            { events := [startCall c], uploads := [], archives := [], fatal := some e }
        | Outcome.ok _ =>
            { events := [startCall c,
                LogCall.runFinished (c.uuids 2) run_id c.component "SUCCESS"
                  "No files found. Run finished." [("files_found", MetaVal.int 0)]],
              uploads := [], archives := [], fatal := none }
      else
        match c.already_loaded (files.map FileIdentity.stable_key) with
        | Outcome.exn e =>
            { events := [startCall c], uploads := [], archives := [], fatal := some e }
        | Outcome.ok loaded_ids =>
          let new_files := newFiles files loaded_ids
          let skipped_count := files.length - new_files.length
          let r := processLoop c run_id 2 new_files
          match r.1.fatal with
          | some e =>
              { events := startCall c :: r.1.events, uploads := r.1.uploads,
                archives := r.1.archives, fatal := some e }
          | none =>
            match c.emit_run_finished with
            | Outcome.exn e =>
                { events := startCall c :: r.1.events, uploads := r.1.uploads,
                  archives := r.1.archives, fatal := some e }
            | Outcome.ok _ =>
                { events := startCall c ::
                    (r.1.events ++
                      [LogCall.runFinished (c.uuids (2 + new_files.length)) run_id c.component
                        (if r.2.2 = 0 then "SUCCESS" else "FAILURE") "Pipeline run finished"
                        (finishedMeta files.length new_files.length skipped_count r.2.1 r.2.2)]),
                  uploads := r.1.uploads, archives := r.1.archives, fatal := none }

/-- Concrete pipeline collaborators for the specification §8 scenario. -/
def scenarioCollab : Collab :=
  { component := "LOCAL_TO_S3"
    uuids := fun n => "u" ++ natRepr n
    list_files := Outcome.ok
      [FileIdentity.mk "a.csv" 100 1000000,
       FileIdentity.mk "b.csv" 200 2000000,
       FileIdentity.mk "c.parquet" 300 3000000]
    already_loaded := fun _ => Outcome.ok ["b.csv|200|2"]
    upload := fun f => Outcome.ok ("s3://bucket/raw/" ++ f.name)
    archive := fun _ => Outcome.ok ()
    emit_run_started := Outcome.ok ()
    emit_run_finished := Outcome.ok ()
    emit_ingest_success := fun _ => Outcome.ok ()
    emit_ingest_failure := fun _ => Outcome.ok () }

example :
    (IngestionPipeline.run scenarioCollab).uploads =
      [FileIdentity.mk "a.csv" 100 1000000, FileIdentity.mk "c.parquet" 300 3000000] ∧
    (IngestionPipeline.run scenarioCollab).fatal = none := by
  constructor <;> rfl

/-- The caller-generated event id of an audit event. -/
def LogCall.event_id : LogCall → String
  | LogCall.runStarted eid _ _ _ _ => eid
  | LogCall.runFinished eid _ _ _ _ _ => eid
  | LogCall.ingestSuccess eid _ _ _ _ _ => eid
  | LogCall.ingestFailure eid _ _ _ _ _ _ _ => eid

/-- The entity id of an audit event: the run id for run-lifecycle
events (as `SnowflakeLoadLogRepository` persists them), the file's
stable key for ingest events. -/
def LogCall.entity_id : LogCall → String
  | LogCall.runStarted _ rid _ _ _ => rid
  | LogCall.runFinished _ rid _ _ _ _ => rid
  | LogCall.ingestSuccess _ _ _ eid _ _ => eid
  | LogCall.ingestFailure _ _ _ eid _ _ _ _ => eid

/-- Is this call a `FILE/INGEST/SUCCESS` event. -/
def LogCall.isIngestSuccess : LogCall → Bool
  | LogCall.ingestSuccess _ _ _ _ _ _ => true
  | _ => false

/-- Is this call a `FILE/INGEST/FAILURE` event. -/
def LogCall.isIngestFailure : LogCall → Bool
  | LogCall.ingestFailure _ _ _ _ _ _ _ _ => true
  | _ => false

/-- Is this call a run-finished event. -/
def LogCall.isRunFinished : LogCall → Bool
  | LogCall.runFinished _ _ _ _ _ _ => true
  | _ => false

/-- Did the `try` block of the loop body run to completion for `f`
(upload succeeded, the success event was logged, archive succeeded),
so that `success_count` was bumped. -/
def fileOk (c : Collab) (f : FileIdentity) : Bool :=
  match c.upload f with
  | Outcome.ok _ =>
      match c.emit_ingest_success f with
      | Outcome.ok _ =>
          match c.archive f with
          | Outcome.ok _ => true
          | Outcome.exn _ => false
      | Outcome.exn _ => false
  | Outcome.exn _ => false

/-- Was `archiver.archive` reached for `f` (upload succeeded and the
success event was logged). -/
def archiveReached (c : Collab) (f : FileIdentity) : Bool :=
  match c.upload f with
  | Outcome.ok _ =>
      match c.emit_ingest_success f with
      | Outcome.ok _ => true
      | Outcome.exn _ => false
  | Outcome.exn _ => false

/-- The events one loop iteration appends, as a function of the oracle
outcomes for `f` (matches `processFile`). -/
def fileEvents (c : Collab) (run_id event_id : String) (f : FileIdentity) : List LogCall :=
  (processFile c run_id event_id f).1.events

/-- The events of the whole per-file loop when no iteration is fatal. -/
def loopEvents (c : Collab) (run_id : String) : Nat → List FileIdentity → List LogCall
  | _, [] => []
  | n, f :: fs => fileEvents c run_id (c.uuids n) f ++ loopEvents c run_id (n + 1) fs

theorem fileOk_archiveReached (c : Collab) (f : FileIdentity) :
    fileOk c f = true → archiveReached c f = true := by
  unfold fileOk archiveReached
  cases c.upload f <;> cases c.emit_ingest_success f <;> cases c.archive f <;> simp

theorem processFile_char (c : Collab) (run_id event_id : String) (f : FileIdentity)
    (h : c.emit_ingest_failure f = Outcome.ok ()) :
    (processFile c run_id event_id f).1.fatal = none ∧
    (processFile c run_id event_id f).1.uploads = [f] ∧
    (processFile c run_id event_id f).1.archives =
      (if archiveReached c f then [f] else []) ∧
    (processFile c run_id event_id f).2 = fileOk c f := by
  unfold processFile archiveReached fileOk
  cases c.upload f <;> cases c.emit_ingest_success f <;> cases c.archive f <;>
    simp [h]

theorem processLoop_noFatal (c : Collab) (run_id : String) :
    ∀ (fs : List FileIdentity) (n : Nat),
      (∀ f ∈ fs, c.emit_ingest_failure f = Outcome.ok ()) →
      processLoop c run_id n fs =
        ({ events := loopEvents c run_id n fs,
           uploads := fs,
           archives := fs.filter (archiveReached c),
           fatal := none },
         (fs.filter (fileOk c)).length,
         fs.length - (fs.filter (fileOk c)).length) := by
  intro fs
  induction fs with
  | nil => intro n _; rfl
  | cons f fs ih =>
    intro n hf
    have hhd := processFile_char c run_id (c.uuids n) f (hf f (List.mem_cons_self _ _))
    have htl := ih (n + 1) (fun g hg => hf g (List.mem_cons_of_mem _ hg))
    rw [processLoop, hhd.1, htl]
    simp only [loopEvents, fileEvents, List.filter_cons, hhd.2.1, hhd.2.2.1, hhd.2.2.2]
    have himp := fileOk_archiveReached c f
    have hle : (List.filter (fileOk c) fs).length ≤ fs.length :=
      List.length_filter_le _ _
    cases hok : fileOk c f <;> cases har : archiveReached c f <;>
      simp_all [Prod.mk.injEq, RunTrace.mk.injEq] <;> omega

theorem fileEvents_upload_exn (c : Collab) (run_id event_id : String) (f : FileIdentity)
    (e : String) (hu : c.upload f = Outcome.exn e)
    (hf : c.emit_ingest_failure f = Outcome.ok ()) :
    fileEvents c run_id event_id f = [failCall c run_id event_id f e] := by
  unfold fileEvents processFile
  rw [hu, hf]

theorem fileEvents_all_ok (c : Collab) (run_id event_id : String) (f : FileIdentity)
    (d : String) (hu : c.upload f = Outcome.ok d)
    (hs : c.emit_ingest_success f = Outcome.ok ())
    (ha : c.archive f = Outcome.ok ()) :
    fileEvents c run_id event_id f = [succCall c run_id event_id f d] := by
  unfold fileEvents processFile
  rw [hu, hs, ha]

theorem fileEvents_archive_exn (c : Collab) (run_id event_id : String) (f : FileIdentity)
    (d e : String) (hu : c.upload f = Outcome.ok d)
    (hs : c.emit_ingest_success f = Outcome.ok ())
    (ha : c.archive f = Outcome.exn e)
    (hf : c.emit_ingest_failure f = Outcome.ok ()) :
    fileEvents c run_id event_id f =
      [succCall c run_id event_id f d, failCall c run_id event_id f e] := by
  unfold fileEvents processFile
  rw [hu, hs, ha, hf]

theorem fileEvents_emit_success_exn (c : Collab) (run_id event_id : String)
    (f : FileIdentity) (d e : String) (hu : c.upload f = Outcome.ok d)
    (hs : c.emit_ingest_success f = Outcome.exn e)
    (hf : c.emit_ingest_failure f = Outcome.ok ()) :
    fileEvents c run_id event_id f = [failCall c run_id event_id f e] := by
  unfold fileEvents processFile
  rw [hu, hs, hf]

theorem loopEvents_append (c : Collab) (run_id : String) :
    ∀ (l₁ l₂ : List FileIdentity) (n : Nat),
      loopEvents c run_id n (l₁ ++ l₂) =
        loopEvents c run_id n l₁ ++ loopEvents c run_id (n + l₁.length) l₂ := by
  intro l₁
  induction l₁ with
  | nil => intro l₂ n; simp [loopEvents]
  | cons f fs ih =>
    intro l₂ n
    rw [List.cons_append, loopEvents, loopEvents, ih, List.append_assoc, List.length_cons]
    have h : n + 1 + fs.length = n + (fs.length + 1) := by omega
    rw [h]

theorem loopEvents_all_success (c : Collab) (run_id : String) :
    ∀ (l : List FileIdentity) (n : Nat),
      (∀ f ∈ l, (∃ d, c.upload f = Outcome.ok d) ∧
        c.emit_ingest_success f = Outcome.ok () ∧ c.archive f = Outcome.ok ()) →
      (∀ ev ∈ loopEvents c run_id n l, ev.isIngestSuccess = true) ∧
      (loopEvents c run_id n l).length = l.length := by
  intro l
  induction l with
  | nil =>
    intro n _
    refine ⟨?_, rfl⟩
    intro ev h
    cases h
  | cons f fs ih =>
    intro n hl
    obtain ⟨⟨d, hu⟩, hs, ha⟩ := hl f (List.mem_cons_self _ _)
    have htl := ih (n + 1) (fun g hg => hl g (List.mem_cons_of_mem _ hg))
    rw [loopEvents, fileEvents_all_ok c run_id (c.uuids n) f d hu hs ha]
    constructor
    · intro ev hev
      rcases List.mem_append.1 hev with h | h
      · rcases List.mem_singleton.1 h with rfl
        rfl
      · exact htl.1 ev h
    · simp [htl.2]

theorem processLoop_uploads_sublist (c : Collab) (run_id : String) :
    ∀ (fs : List FileIdentity) (n : Nat),
      (processLoop c run_id n fs).1.uploads.Sublist fs ∧
      (processLoop c run_id n fs).1.archives.Sublist fs := by
  intro fs
  induction fs with
  | nil => intro n; exact ⟨List.Sublist.refl _, List.Sublist.refl _⟩
  | cons f fs ih =>
    intro n
    rw [processLoop]
    have hfile :
        (processFile c run_id (c.uuids n) f).1.uploads.Sublist [f] ∧
        (processFile c run_id (c.uuids n) f).1.archives.Sublist [f] := by
      unfold processFile
      cases c.upload f <;> cases c.emit_ingest_success f <;> cases c.archive f <;>
        cases c.emit_ingest_failure f <;> simp
    cases hfat : (processFile c run_id (c.uuids n) f).1.fatal with
    | some e =>
      simp only
      constructor
      · exact hfile.1.trans ((List.nil_sublist fs).cons₂ f)
      · exact hfile.2.trans ((List.nil_sublist fs).cons₂ f)
    | none =>
      simp only
      constructor
      · have h1 : ((processFile c run_id (c.uuids n) f).1.uploads ++
            (processLoop c run_id (n + 1) fs).1.uploads).Sublist ([f] ++ fs) :=
          hfile.1.append (ih (n + 1)).1
        simpa using h1
      · have h1 : ((processFile c run_id (c.uuids n) f).1.archives ++
            (processLoop c run_id (n + 1) fs).1.archives).Sublist ([f] ++ fs) :=
          hfile.2.append (ih (n + 1)).2
        simpa using h1

@[simp] theorem event_id_succCall (c : Collab) (rid eid : String) (f : FileIdentity)
    (d : String) : (succCall c rid eid f d).event_id = eid := rfl

@[simp] theorem event_id_failCall (c : Collab) (rid eid : String) (f : FileIdentity)
    (e : String) : (failCall c rid eid f e).event_id = eid := rfl

@[simp] theorem entity_id_succCall (c : Collab) (rid eid : String) (f : FileIdentity)
    (d : String) : (succCall c rid eid f d).entity_id = f.stable_key := rfl

@[simp] theorem entity_id_failCall (c : Collab) (rid eid : String) (f : FileIdentity)
    (e : String) : (failCall c rid eid f e).entity_id = f.stable_key := rfl

@[simp] theorem isIngestSuccess_succCall (c : Collab) (rid eid : String) (f : FileIdentity)
    (d : String) : (succCall c rid eid f d).isIngestSuccess = true := rfl

@[simp] theorem isIngestSuccess_failCall (c : Collab) (rid eid : String) (f : FileIdentity)
    (e : String) : (failCall c rid eid f e).isIngestSuccess = false := rfl

@[simp] theorem isIngestFailure_succCall (c : Collab) (rid eid : String) (f : FileIdentity)
    (d : String) : (succCall c rid eid f d).isIngestFailure = false := rfl

@[simp] theorem isIngestFailure_failCall (c : Collab) (rid eid : String) (f : FileIdentity)
    (e : String) : (failCall c rid eid f e).isIngestFailure = true := rfl

@[simp] theorem isRunFinished_succCall (c : Collab) (rid eid : String) (f : FileIdentity)
    (d : String) : (succCall c rid eid f d).isRunFinished = false := rfl

@[simp] theorem isRunFinished_failCall (c : Collab) (rid eid : String) (f : FileIdentity)
    (e : String) : (failCall c rid eid f e).isRunFinished = false := rfl

@[simp] theorem isRunFinished_startCall (c : Collab) :
    (startCall c).isRunFinished = false := rfl

@[simp] theorem isIngestSuccess_startCall (c : Collab) :
    (startCall c).isIngestSuccess = false := rfl

@[simp] theorem isIngestFailure_startCall (c : Collab) :
    (startCall c).isIngestFailure = false := rfl

@[simp] theorem event_id_startCall (c : Collab) :
    (startCall c).event_id = c.uuids 1 := rfl

theorem processFile_events_cases (c : Collab) (rid eid : String) (f : FileIdentity) :
    (processFile c rid eid f).1.events = [] ∨
    (∃ d, (processFile c rid eid f).1.events = [succCall c rid eid f d]) ∨
    (∃ e, (processFile c rid eid f).1.events = [failCall c rid eid f e]) ∨
    (∃ d e, (processFile c rid eid f).1.events =
      [succCall c rid eid f d, failCall c rid eid f e]) := by
  unfold processFile
  cases c.upload f <;> cases c.emit_ingest_success f <;>
    cases c.archive f <;> cases c.emit_ingest_failure f <;> simp

theorem processFile_events_shape (c : Collab) (rid eid : String) (f : FileIdentity) :
    ∀ ev ∈ (processFile c rid eid f).1.events,
      (ev.isIngestSuccess || ev.isIngestFailure) = true ∧
      ev.entity_id = f.stable_key ∧ ev.event_id = eid := by
  intro ev hev
  rcases processFile_events_cases c rid eid f with h | ⟨d, h⟩ | ⟨e, h⟩ | ⟨d, e, h⟩ <;>
    rw [h] at hev <;> simp at hev
  · rcases hev with rfl; simp
  · rcases hev with rfl; simp
  · rcases hev with rfl | rfl <;> simp

theorem processLoop_events_shape (c : Collab) (rid : String) :
    ∀ (fs : List FileIdentity) (n : Nat),
      ∀ ev ∈ (processLoop c rid n fs).1.events,
        (ev.isIngestSuccess || ev.isIngestFailure) = true ∧
        ∃ f ∈ fs, ev.entity_id = f.stable_key := by
  intro fs
  induction fs with
  | nil => intro n ev hev; cases hev
  | cons f fs ih =>
    intro n ev hev
    rw [processLoop] at hev
    cases hfat : (processFile c rid (c.uuids n) f).1.fatal with
    | some e =>
      rw [hfat] at hev
      simp only at hev
      have := processFile_events_shape c rid (c.uuids n) f ev hev
      exact ⟨this.1, f, List.mem_cons_self _ _, this.2.1⟩
    | none =>
      rw [hfat] at hev
      simp only at hev
      rcases List.mem_append.1 hev with h | h
      · have := processFile_events_shape c rid (c.uuids n) f ev h
        exact ⟨this.1, f, List.mem_cons_self _ _, this.2.1⟩
      · obtain ⟨h1, g, hg, h2⟩ := ih (n + 1) ev h
        exact ⟨h1, g, List.mem_cons_of_mem _ hg, h2⟩

theorem ingest_not_runFinished (ev : LogCall)
    (h : (ev.isIngestSuccess || ev.isIngestFailure) = true) :
    ev.isRunFinished = false := by
  cases ev <;> simp_all [LogCall.isIngestSuccess, LogCall.isIngestFailure,
    LogCall.isRunFinished]

theorem processLoop_counts (c : Collab) (rid : String) :
    ∀ (fs : List FileIdentity) (n : Nat),
      (processLoop c rid n fs).1.fatal = none →
      (processLoop c rid n fs).2.1 + (processLoop c rid n fs).2.2 = fs.length := by
  intro fs
  induction fs with
  | nil => intro n _; rfl
  | cons f fs ih =>
    intro n hfat
    rw [processLoop] at hfat ⊢
    cases hpf : (processFile c rid (c.uuids n) f).1.fatal with
    | some e => rw [hpf] at hfat; simp at hfat
    | none =>
      rw [hpf] at hfat
      dsimp only at hfat ⊢
      have := ih (n + 1) hfat
      cases hb : (processFile c rid (c.uuids n) f).2 <;> simp <;> omega

theorem processFile_failure_event_count (c : Collab) (rid eid : String) (f : FileIdentity)
    (hfat : (processFile c rid eid f).1.fatal = none) :
    ((processFile c rid eid f).1.events.filter LogCall.isIngestFailure).length =
      (if (processFile c rid eid f).2 then 0 else 1) := by
  unfold processFile at hfat ⊢
  cases hu : c.upload f <;> cases hs : c.emit_ingest_success f <;>
    cases ha : c.archive f <;> cases hf : c.emit_ingest_failure f <;> simp_all

theorem processLoop_failure_event_count (c : Collab) (rid : String) :
    ∀ (fs : List FileIdentity) (n : Nat),
      (processLoop c rid n fs).1.fatal = none →
      ((processLoop c rid n fs).1.events.filter LogCall.isIngestFailure).length =
        (processLoop c rid n fs).2.2 := by
  intro fs
  induction fs with
  | nil => intro n _; rfl
  | cons f fs ih =>
    intro n hfat
    rw [processLoop] at hfat ⊢
    cases hpf : (processFile c rid (c.uuids n) f).1.fatal with
    | some e => rw [hpf] at hfat; simp at hfat
    | none =>
      rw [hpf] at hfat
      dsimp only at hfat ⊢
      have hhd := processFile_failure_event_count c rid (c.uuids n) f hpf
      have htl := ih (n + 1) hfat
      rw [List.filter_append, List.length_append, hhd, htl]

theorem processFile_ids_archive_ok (c : Collab) (rid eid : String) (f : FileIdentity)
    (ha : c.archive f = Outcome.ok ()) :
    ((processFile c rid eid f).1.events.map LogCall.event_id).Sublist [eid] := by
  unfold processFile
  rw [ha]
  cases c.upload f <;> cases c.emit_ingest_success f <;>
    cases c.emit_ingest_failure f <;> simp

theorem range_map_succ {α : Type} (g : Nat → α) (l n : Nat) :
    (List.range (l + 1)).map (fun i => g (n + i)) =
      g n :: (List.range l).map (fun i => g (n + 1 + i)) := by
  rw [List.range_succ_eq_map, List.map_cons, List.map_map]
  refine congrArg₂ _ (by rw [Nat.add_zero]) ?_
  apply List.map_congr_left
  intro i _
  show g (n + (i + 1)) = g (n + 1 + i)
  congr 1
  omega

theorem processLoop_ids (c : Collab) (rid : String) :
    ∀ (fs : List FileIdentity) (n : Nat),
      (∀ f ∈ fs, c.archive f = Outcome.ok ()) →
      ((processLoop c rid n fs).1.events.map LogCall.event_id).Sublist
        ((List.range fs.length).map (fun i => c.uuids (n + i))) := by
  intro fs
  induction fs with
  | nil => intro n _; simp [processLoop]
  | cons f fs ih =>
    intro n hfs
    have hhd := processFile_ids_archive_ok c rid (c.uuids n) f
      (hfs f (List.mem_cons_self _ _))
    have htl := ih (n + 1) (fun g hg => hfs g (List.mem_cons_of_mem _ hg))
    rw [processLoop, List.length_cons, range_map_succ]
    cases hpf : (processFile c rid (c.uuids n) f).1.fatal with
    | some e =>
      dsimp only
      refine hhd.trans ?_
      exact (List.nil_sublist _).cons₂ (c.uuids n)
    | none =>
      dsimp only
      rw [List.map_append]
      have happ := hhd.append htl
      simpa using happ

/-- The loop part of `run()` for candidate list `fs` and loaded-key set
`loaded`: trace, `success_count` and `failure_count`. -/
def runLoop (c : Collab) (fs : List FileIdentity) (loaded : List String) :
    RunTrace × Nat × Nat :=
  processLoop c (c.uuids 0) 2 (newFiles fs loaded)

/-- The finishing summary event of a completed non-empty run. -/
def finCall (c : Collab) (fs : List FileIdentity) (loaded : List String) : LogCall :=
  LogCall.runFinished (c.uuids (2 + (newFiles fs loaded).length)) (c.uuids 0) c.component
    (if (runLoop c fs loaded).2.2 = 0 then "SUCCESS" else "FAILURE") "Pipeline run finished"
    (finishedMeta fs.length (newFiles fs loaded).length
      (fs.length - (newFiles fs loaded).length)
      (runLoop c fs loaded).2.1 (runLoop c fs loaded).2.2)

theorem run_ok_char (c : Collab) (fs : List FileIdentity) (loaded : List String)
    (hstart : c.emit_run_started = Outcome.ok ())
    (hlist : c.list_files = Outcome.ok fs)
    (hne : fs.isEmpty = false)
    (hload : c.already_loaded (fs.map FileIdentity.stable_key) = Outcome.ok loaded)
    (hloopfatal : (runLoop c fs loaded).1.fatal = none)
    (hfin : c.emit_run_finished = Outcome.ok ()) :
    IngestionPipeline.run c =
      { events := startCall c :: ((runLoop c fs loaded).1.events ++ [finCall c fs loaded]),
        uploads := (runLoop c fs loaded).1.uploads,
        archives := (runLoop c fs loaded).1.archives,
        fatal := none } := by
  unfold runLoop at hloopfatal
  unfold IngestionPipeline.run
  rw [hstart]
  dsimp only
  rw [hlist]
  dsimp only
  rw [hne]
  simp only [Bool.false_eq_true, if_false]
  rw [hload]
  dsimp only
  rw [hloopfatal]
  dsimp only
  rw [hfin]
  unfold finCall runLoop
  rfl

theorem run_fatal_start (c : Collab) (e : String)
    (hstart : c.emit_run_started = Outcome.exn e) :
    IngestionPipeline.run c =
      { events := [], uploads := [], archives := [], fatal := some e } := by
  unfold IngestionPipeline.run
  rw [hstart]

theorem run_fatal_list (c : Collab) (e : String)
    (hstart : c.emit_run_started = Outcome.ok ())
    (hlist : c.list_files = Outcome.exn e) :
    IngestionPipeline.run c =
      { events := [startCall c], uploads := [], archives := [], fatal := some e } := by
  unfold IngestionPipeline.run
  rw [hstart]
  dsimp only
  rw [hlist]

theorem run_fatal_load (c : Collab) (fs : List FileIdentity) (e : String)
    (hstart : c.emit_run_started = Outcome.ok ())
    (hlist : c.list_files = Outcome.ok fs)
    (hne : fs.isEmpty = false)
    (hload : c.already_loaded (fs.map FileIdentity.stable_key) = Outcome.exn e) :
    IngestionPipeline.run c =
      { events := [startCall c], uploads := [], archives := [], fatal := some e } := by
  unfold IngestionPipeline.run
  rw [hstart]
  dsimp only
  rw [hlist]
  dsimp only
  rw [hne]
  simp only [Bool.false_eq_true, if_false]
  rw [hload]

theorem run_fatal_finished_empty (c : Collab) (e : String)
    (hstart : c.emit_run_started = Outcome.ok ())
    (hlist : c.list_files = Outcome.ok [])
    (hfin : c.emit_run_finished = Outcome.exn e) :
    IngestionPipeline.run c =
      { events := [startCall c], uploads := [], archives := [], fatal := some e } := by
  unfold IngestionPipeline.run
  rw [hstart]
  dsimp only
  rw [hlist]
  dsimp only [List.isEmpty]
  rw [hfin]
  rfl

theorem run_fatal_loop (c : Collab) (fs : List FileIdentity) (loaded : List String)
    (e : String)
    (hstart : c.emit_run_started = Outcome.ok ())
    (hlist : c.list_files = Outcome.ok fs)
    (hne : fs.isEmpty = false)
    (hload : c.already_loaded (fs.map FileIdentity.stable_key) = Outcome.ok loaded)
    (hloop : (runLoop c fs loaded).1.fatal = some e) :
    IngestionPipeline.run c =
      { events := startCall c :: (runLoop c fs loaded).1.events,
        uploads := (runLoop c fs loaded).1.uploads,
        archives := (runLoop c fs loaded).1.archives,
        fatal := some e } := by
  unfold runLoop at hloop
  unfold IngestionPipeline.run
  rw [hstart]
  dsimp only
  rw [hlist]
  dsimp only
  rw [hne]
  simp only [Bool.false_eq_true, if_false]
  rw [hload]
  dsimp only
  rw [hloop]
  unfold runLoop
  rfl

theorem run_fatal_finished (c : Collab) (fs : List FileIdentity) (loaded : List String)
    (e : String)
    (hstart : c.emit_run_started = Outcome.ok ())
    (hlist : c.list_files = Outcome.ok fs)
    (hne : fs.isEmpty = false)
    (hload : c.already_loaded (fs.map FileIdentity.stable_key) = Outcome.ok loaded)
    (hloopfatal : (runLoop c fs loaded).1.fatal = none)
    (hfin : c.emit_run_finished = Outcome.exn e) :
    IngestionPipeline.run c =
      { events := startCall c :: (runLoop c fs loaded).1.events,
        uploads := (runLoop c fs loaded).1.uploads,
        archives := (runLoop c fs loaded).1.archives,
        fatal := some e } := by
  unfold runLoop at hloopfatal
  unfold IngestionPipeline.run
  rw [hstart]
  dsimp only
  rw [hlist]
  dsimp only
  rw [hne]
  simp only [Bool.false_eq_true, if_false]
  rw [hload]
  dsimp only
  rw [hloopfatal]
  dsimp only
  rw [hfin]
  unfold runLoop
  rfl

theorem run_empty_ok (c : Collab)
    (hstart : c.emit_run_started = Outcome.ok ())
    (hlist : c.list_files = Outcome.ok [])
    (hfin : c.emit_run_finished = Outcome.ok ()) :
    IngestionPipeline.run c =
      { events := [startCall c,
          LogCall.runFinished (c.uuids 2) (c.uuids 0) c.component "SUCCESS"
            "No files found. Run finished." [("files_found", MetaVal.int 0)]],
        uploads := [], archives := [], fatal := none } := by
  unfold IngestionPipeline.run
  rw [hstart]
  dsimp only
  rw [hlist]
  dsimp only [List.isEmpty]
  rw [hfin]
  rfl

theorem processLoop_filter_runFinished (c : Collab) (rid : String)
    (fs : List FileIdentity) (n : Nat) :
    (processLoop c rid n fs).1.events.filter LogCall.isRunFinished = [] := by
  rw [List.filter_eq_nil_iff]
  intro ev hev
  have h := processLoop_events_shape c rid fs n ev hev
  rw [ingest_not_runFinished ev h.1]
  simp

theorem run_fatal_no_finished (c : Collab)
    (hfat : (IngestionPipeline.run c).fatal ≠ none) :
    (IngestionPipeline.run c).events.filter LogCall.isRunFinished = [] := by
  cases hstart : c.emit_run_started with
  | exn e => rw [run_fatal_start c e hstart]; rfl
  | ok u =>
    cases u
    cases hlist : c.list_files with
    | exn e => rw [run_fatal_list c e hstart hlist]; rfl
    | ok fs =>
      cases fs with
      | nil =>
        cases hfin : c.emit_run_finished with
        | exn e => rw [run_fatal_finished_empty c e hstart hlist hfin]; rfl
        | ok u =>
          cases u
          rw [run_empty_ok c hstart hlist hfin] at hfat
          simp at hfat
      | cons f fs =>
        cases hload : c.already_loaded ((f :: fs).map FileIdentity.stable_key) with
        | exn e => rw [run_fatal_load c (f :: fs) e hstart hlist rfl hload]; rfl
        | ok loaded =>
          cases hloop : (runLoop c (f :: fs) loaded).1.fatal with
          | some e =>
            rw [run_fatal_loop c (f :: fs) loaded e hstart hlist rfl hload hloop]
            simp only [List.filter_cons, isRunFinished_startCall]
            exact processLoop_filter_runFinished c (c.uuids 0) (newFiles (f :: fs) loaded) 2
          | none =>
            cases hfin : c.emit_run_finished with
            | exn e =>
              rw [run_fatal_finished c (f :: fs) loaded e hstart hlist rfl hload hloop hfin]
              simp only [List.filter_cons, isRunFinished_startCall]
              exact processLoop_filter_runFinished c (c.uuids 0) (newFiles (f :: fs) loaded) 2
            | ok u =>
              cases u
              rw [run_ok_char c (f :: fs) loaded hstart hlist rfl hload hloop hfin] at hfat
              simp at hfat

/-- `infra/s3_uploader.py` `S3Uploader` after `__init__`: the normalised
logical prefix and the resolved bucket name. -/
structure S3Uploader where
  bucket : String
  basePrefix : String
deriving DecidableEq, Repr

/-- `S3Uploader.build_s3_key`: prefix + "/" + file name when a base
prefix is configured, else just the file name. -/
def S3Uploader.build_s3_key (u : S3Uploader) (f : FileIdentity) : String :=
  if u.basePrefix ≠ "" then u.basePrefix ++ "/" ++ f.name else f.name

/-- `S3Uploader.upload`: builds the object key, performs the transfer
(an external effect), prints the S3 URI, and falls off the end of the
function body — so Python returns `None`.  The result is the pair
(printed URI, returned value). -/
def S3Uploader.upload (u : S3Uploader) (f : FileIdentity) : String × Option String :=
  let s3_key := u.build_s3_key f
  ("s3://" ++ u.bucket ++ "/" ++ s3_key, none)

/-- Python exception classes distinguished by `ArchiveLocalFiles.archive`. -/
inductive PyExn where
  | fileNotFound
  | permission
  | fileExists
  | other (msg : String)
deriving DecidableEq, Repr

/-- Result of one `ArchiveLocalFiles.archive` call on the filesystem
state it encounters: whether the source file was moved into the
archive, the diagnostic line printed, and the exception the call
raised to its caller, if any. -/
structure ArchiveResult where
  moved : Bool
  printed : String
  raised : Option PyExn
deriving DecidableEq, Repr

/-- `infra/local_archiver.py` `ArchiveLocalFiles.archive`:
`trgExists` is the value of `trg_path.exists()` (a same-named file is
already present in the archive directory); `move` is the outcome of
`shutil.move` when it is attempted.  The `try` block raises
`FileExistsError` itself on a name collision, before moving; every
exception class is caught by one of the four `except` clauses, which
print a diagnostic and `return None`. -/
def ArchiveLocalFiles.archive (trgExists : Bool) (move : Except PyExn Unit)
    (f : FileIdentity) : ArchiveResult :=
  if trgExists then
    { moved := false, printed := "--> Archive FAILED!!! --> File name already exists in archive!!!",
      raised := none }
  else
    match move with
    | Except.ok _ =>
        { moved := true, printed := "--> " ++ f.name ++ " - SUCCESSFULLY archived",
          raised := none }
    | Except.error PyExn.fileNotFound =>
        { moved := false, printed := "--> Archive FAILED!!! --> Source file is missing",
          raised := none }
    | Except.error PyExn.permission =>
        { moved := false, printed := "--> Archive FAILED!!! --> Permission issue while archiving!!!",
          raised := none }
    | Except.error PyExn.fileExists =>
        { moved := false, printed := "--> Archive FAILED!!! --> File name already exists in archive!!!",
          raised := none }
    | Except.error (PyExn.other msg) =>
        { moved := false, printed := "--> Archive FAILED!!! -->  Error message: " ++ msg,
          raised := none }

/-- One persisted row of the `SYSTEM_EVENT_LOG` table, with the columns
`_insert_event` fills (the server-assigned timestamp is omitted). -/
structure EventRow where
  run_id : String
  event_id : String
  event_level : String
  event_type : String
  component : String
  entity_type : String
  entity_id : String
  status : String
  message : String
  error_code : Option String
  error_details : Option String
  metadata : List (String × MetaVal)
deriving DecidableEq, Repr

/-- How `SnowflakeLoadLogRepository` maps each repository call to the
row it inserts (`log_run_started`, `log_run_finished`,
`log_ingest_success`, `log_ingest_failure`). -/
def toRow : LogCall → EventRow
  | LogCall.runStarted eid rid comp msg meta =>
      { run_id := rid, event_id := eid, event_level := "INFO", event_type := "RUN",
        component := comp, entity_type := "RUN", entity_id := rid, status := "STARTED",
        message := msg, error_code := none, error_details := none, metadata := meta }
  | LogCall.runFinished eid rid comp status msg meta =>
      { run_id := rid, event_id := eid,
        event_level := if status = "SUCCESS" then "INFO" else "ERROR",
        event_type := "RUN", component := comp, entity_type := "RUN", entity_id := rid,
        status := status, message := msg, error_code := none, error_details := none,
        metadata := meta }
  | LogCall.ingestSuccess eid rid comp entity msg meta =>
      { run_id := rid, event_id := eid, event_level := "INFO", event_type := "INGEST",
        component := comp, entity_type := "FILE", entity_id := entity, status := "SUCCESS",
        message := msg, error_code := none, error_details := none, metadata := meta }
  | LogCall.ingestFailure eid rid comp entity msg ecode edetails meta =>
      { run_id := rid, event_id := eid, event_level := "ERROR", event_type := "INGEST",
        component := comp, entity_type := "FILE", entity_id := entity, status := "FAILURE",
        message := msg, error_code := ecode, error_details := some edetails, metadata := meta }

/-- `SnowflakeLoadLogRepository.already_loaded` against table contents
`table`: the empty key list short-circuits to the empty set; otherwise
the SQL query returns exactly those keys having some row with
`entity_type = FILE`, `event_type = INGEST`, `status = SUCCESS`
(the result set is modelled as a list whose membership is the set). -/
def SnowflakeLoadLogRepository.already_loaded (table : List EventRow)
    (file_keys : List String) : List String :=
  if file_keys.isEmpty then []
  else file_keys.filter (fun k =>
    table.any (fun r =>
      r.entity_id == k && r.entity_type == "FILE" &&
      r.event_type == "INGEST" && r.status == "SUCCESS"))

/-- C10: the reference Archiver implementation `ArchiveLocalFiles.archive`
never raises to its caller — a missing source, a permission error, a
name collision in the archive directory and any other exception are all
caught internally and the call returns `None`; on a name collision
nothing is moved, so the existing archived file is not overwritten and
the source file stays in place. -/
theorem archive_never_raises (trgExists : Bool) (move : Except PyExn Unit)
    (f : FileIdentity) :
    (ArchiveLocalFiles.archive trgExists move f).raised = none ∧
    (trgExists = true → (ArchiveLocalFiles.archive trgExists move f).moved = false) := by
  unfold ArchiveLocalFiles.archive
  cases trgExists with
  | false =>
    refine ⟨?_, by intro h; cases h⟩
    cases move with
    | ok u => rfl
    | error e => cases e <;> rfl
  | true => exact ⟨rfl, fun _ => rfl⟩

/-- Witness for C10 at a concrete input: a name collision raises
nothing and moves nothing. -/
theorem archive_never_raises_witness :
    (ArchiveLocalFiles.archive true (Except.ok ())
        (FileIdentity.mk "data/a.csv" 100 1500000)).raised = none ∧
    (ArchiveLocalFiles.archive true (Except.ok ())
        (FileIdentity.mk "data/a.csv" 100 1500000)).moved = false :=
  ⟨(archive_never_raises true (Except.ok ()) (FileIdentity.mk "data/a.csv" 100 1500000)).1,
   (archive_never_raises true (Except.ok ()) (FileIdentity.mk "data/a.csv" 100 1500000)).2 rfl⟩

/-- C7 (code bug): `S3Uploader.upload` builds the location reference and
prints it, but returns Python `None` — not the location string the
`Uploader` port contract (`upload(file) -> str`) declares and the
pipeline stores as the success event's `destination`. -/
theorem s3_upload_returns_none :
    S3Uploader.upload (S3Uploader.mk "my-bucket" "raw")
        (FileIdentity.mk "data/taxi_zone_lookup.csv" 12345 1767285799000000) =
      ("s3://my-bucket/raw/taxi_zone_lookup.csv", none) := by
  decide

theorem mem_newFiles {f : FileIdentity} {fs : List FileIdentity} {loaded : List String}
    (hf : f ∈ newFiles fs loaded) : f ∈ fs ∧ f.stable_key ∉ loaded := by
  unfold newFiles at hf
  rw [List.mem_filter] at hf
  exact ⟨hf.1, by simpa using hf.2⟩

theorem runLoop_skipped_frame (c : Collab) (fs : List FileIdentity) (loaded : List String)
    (f : FileIdentity) (hloaded : f.stable_key ∈ loaded) :
    f ∉ (runLoop c fs loaded).1.uploads ∧
    f ∉ (runLoop c fs loaded).1.archives ∧
    ∀ ev ∈ (runLoop c fs loaded).1.events, ev.entity_id ≠ f.stable_key := by
  unfold runLoop
  have hsub := processLoop_uploads_sublist c (c.uuids 0) (newFiles fs loaded) 2
  refine ⟨?_, ?_, ?_⟩
  · intro hmem
    exact (mem_newFiles (hsub.1.subset hmem)).2 hloaded
  · intro hmem
    exact (mem_newFiles (hsub.2.subset hmem)).2 hloaded
  · intro ev hev heq
    obtain ⟨_, g, hg, hid⟩ :=
      processLoop_events_shape c (c.uuids 0) (newFiles fs loaded) 2 ev hev
    have hgkey : g.stable_key = f.stable_key := by rw [← hid, heq]
    have := (mem_newFiles hg).2
    rw [hgkey] at this
    exact this hloaded

/-- C9: a discovered file whose stable key is in the already-loaded set
is a silent no-op — it is neither uploaded nor archived, and no event
whose entity id is its stable key is emitted during the run. -/
theorem skipped_file_is_silent (c : Collab) (fs : List FileIdentity)
    (loaded : List String) (f : FileIdentity)
    (hlist : c.list_files = Outcome.ok fs)
    (hload : c.already_loaded (fs.map FileIdentity.stable_key) = Outcome.ok loaded)
    (hmem : f ∈ fs) (hloaded : f.stable_key ∈ loaded) :
    f ∉ (IngestionPipeline.run c).uploads ∧
    f ∉ (IngestionPipeline.run c).archives ∧
    ∀ ev ∈ (IngestionPipeline.run c).events,
      (ev.isIngestSuccess || ev.isIngestFailure) = true →
      ev.entity_id ≠ f.stable_key := by
  have hframe := runLoop_skipped_frame c fs loaded f hloaded
  have hne : fs.isEmpty = false := by
    cases fs with
    | nil => cases hmem
    | cons a l => rfl
  cases hstart : c.emit_run_started with
  | exn e =>
    rw [run_fatal_start c e hstart]
    exact ⟨by simp, by simp, by intro ev hev; cases hev⟩
  | ok u =>
    cases u
    cases hloop : (runLoop c fs loaded).1.fatal with
    | some e =>
      rw [run_fatal_loop c fs loaded e hstart hlist hne hload hloop]
      refine ⟨hframe.1, hframe.2.1, ?_⟩
      intro ev hev hkind
      rcases List.mem_cons.1 hev with rfl | h
      · intro _
        simp [startCall, LogCall.isIngestSuccess, LogCall.isIngestFailure] at hkind
      · exact hframe.2.2 ev h
    | none =>
      cases hfin : c.emit_run_finished with
      | exn e =>
        rw [run_fatal_finished c fs loaded e hstart hlist hne hload hloop hfin]
        refine ⟨hframe.1, hframe.2.1, ?_⟩
        intro ev hev hkind
        rcases List.mem_cons.1 hev with rfl | h
        · intro _
          simp [startCall, LogCall.isIngestSuccess, LogCall.isIngestFailure] at hkind
        · exact hframe.2.2 ev h
      | ok u =>
        cases u
        rw [run_ok_char c fs loaded hstart hlist hne hload hloop hfin]
        refine ⟨hframe.1, hframe.2.1, ?_⟩
        intro ev hev hkind
        rcases List.mem_cons.1 hev with rfl | h
        · intro _
          simp [startCall, LogCall.isIngestSuccess, LogCall.isIngestFailure] at hkind
        · rcases List.mem_append.1 h with h1 | h1
          · exact hframe.2.2 ev h1
          · rcases List.mem_singleton.1 h1 with rfl
            intro _
            simp [finCall, LogCall.isIngestSuccess, LogCall.isIngestFailure] at hkind

/-- Witness for C9: in the §8 scenario, the already-loaded file `b.csv`
is neither uploaded nor archived and gets no ingest event. -/
theorem skipped_file_is_silent_witness :
    FileIdentity.mk "b.csv" 200 2000000 ∉ (IngestionPipeline.run scenarioCollab).uploads ∧
    FileIdentity.mk "b.csv" 200 2000000 ∉ (IngestionPipeline.run scenarioCollab).archives ∧
    ∀ ev ∈ (IngestionPipeline.run scenarioCollab).events,
      (ev.isIngestSuccess || ev.isIngestFailure) = true →
      ev.entity_id ≠ (FileIdentity.mk "b.csv" 200 2000000).stable_key :=
  skipped_file_is_silent scenarioCollab
    [FileIdentity.mk "a.csv" 100 1000000, FileIdentity.mk "b.csv" 200 2000000,
     FileIdentity.mk "c.parquet" 300 3000000]
    ["b.csv|200|2"] (FileIdentity.mk "b.csv" 200 2000000)
    rfl rfl (by decide) (by decide)

theorem processFile_fatal_upload_exn (c : Collab) (rid eid : String) (f : FileIdentity)
    (eu e : String) (hu : c.upload f = Outcome.exn eu)
    (hf : c.emit_ingest_failure f = Outcome.exn e) :
    (processFile c rid eid f).1.fatal = some e := by
  unfold processFile
  rw [hu, hf]

theorem processLoop_fatal_at (c : Collab) (rid : String) :
    ∀ (as : List FileIdentity) (n : Nat) (g : FileIdentity) (bs : List FileIdentity)
      (e : String),
      (∀ a ∈ as, c.emit_ingest_failure a = Outcome.ok ()) →
      (processFile c rid (c.uuids (n + as.length)) g).1.fatal = some e →
      (processLoop c rid n (as ++ g :: bs)).1.fatal = some e := by
  intro as
  induction as with
  | nil =>
    intro n g bs e _ hg
    simp only [List.length_nil, Nat.add_zero] at hg
    rw [List.nil_append, processLoop, hg]
  | cons a as ih =>
    intro n g bs e has hg
    rw [List.cons_append, processLoop]
    have ha := processFile_char c rid (c.uuids n) a (has a (List.mem_cons_self _ _))
    rw [ha.1]
    dsimp only
    have hg' : (processFile c rid (c.uuids (n + 1 + as.length)) g).1.fatal = some e := by
      have hidx : n + (a :: as).length = n + 1 + as.length := by
        simp only [List.length_cons]; omega
      rw [hidx] at hg
      exact hg
    exact ih (n + 1) g bs e (fun x hx => has x (List.mem_cons_of_mem _ hx)) hg'

/-- C2 (amended): an exception raised by the Finder's `list_files`, by
the repository's bulk `already_loaded` check, or by `log_run_started`,
`log_run_finished` or `log_ingest_failure` is not caught by the
pipeline and propagates out of `run()` as fatal, and on a fatal exit no
finishing event has been written.  (An exception from
`log_ingest_success`, by contrast, is raised inside the per-file `try`
block and is caught by the per-file handler — see the counterexample.) -/
theorem infra_exceptions_propagate (c : Collab) (e : String) :
    (c.emit_run_started = Outcome.exn e → (IngestionPipeline.run c).fatal = some e) ∧
    (c.emit_run_started = Outcome.ok () → c.list_files = Outcome.exn e →
      (IngestionPipeline.run c).fatal = some e) ∧
    (∀ fs, c.emit_run_started = Outcome.ok () → c.list_files = Outcome.ok fs →
      fs.isEmpty = false →
      c.already_loaded (fs.map FileIdentity.stable_key) = Outcome.exn e →
      (IngestionPipeline.run c).fatal = some e) ∧
    (c.emit_run_started = Outcome.ok () → c.list_files = Outcome.ok [] →
      c.emit_run_finished = Outcome.exn e → (IngestionPipeline.run c).fatal = some e) ∧
    (∀ fs loaded, c.emit_run_started = Outcome.ok () → c.list_files = Outcome.ok fs →
      fs.isEmpty = false →
      c.already_loaded (fs.map FileIdentity.stable_key) = Outcome.ok loaded →
      (runLoop c fs loaded).1.fatal = none →
      c.emit_run_finished = Outcome.exn e → (IngestionPipeline.run c).fatal = some e) ∧
    (∀ fs loaded as g bs eu,
      c.emit_run_started = Outcome.ok () → c.list_files = Outcome.ok fs →
      fs.isEmpty = false →
      c.already_loaded (fs.map FileIdentity.stable_key) = Outcome.ok loaded →
      newFiles fs loaded = as ++ g :: bs →
      (∀ a ∈ as, c.emit_ingest_failure a = Outcome.ok ()) →
      c.upload g = Outcome.exn eu →
      c.emit_ingest_failure g = Outcome.exn e →
      (IngestionPipeline.run c).fatal = some e) ∧
    ((IngestionPipeline.run c).fatal ≠ none →
      (IngestionPipeline.run c).events.filter LogCall.isRunFinished = []) := by
  refine ⟨?_, ?_, ?_, ?_, ?_, ?_, run_fatal_no_finished c⟩
  · intro h
    rw [run_fatal_start c e h]
  · intro h1 h2
    rw [run_fatal_list c e h1 h2]
  · intro fs h1 h2 h3 h4
    rw [run_fatal_load c fs e h1 h2 h3 h4]
  · intro h1 h2 h3
    rw [run_fatal_finished_empty c e h1 h2 h3]
  · intro fs loaded h1 h2 h3 h4 h5 h6
    rw [run_fatal_finished c fs loaded e h1 h2 h3 h4 h5 h6]
  · intro fs loaded as g bs eu h1 h2 h3 h4 hdec has hu hf
    have hpf := processFile_fatal_upload_exn c (c.uuids 0) (c.uuids (2 + as.length))
      g eu e hu hf
    have hloop : (runLoop c fs loaded).1.fatal = some e := by
      unfold runLoop
      rw [hdec]
      exact processLoop_fatal_at c (c.uuids 0) as 2 g bs e has hpf
    rw [run_fatal_loop c fs loaded e h1 h2 h3 h4 hloop]

/-- A single candidate file used by the concrete collaborators below. -/
def fileA : FileIdentity := FileIdentity.mk "data/a.csv" 100 1500000

/-- Collaborators where the repository raises on `log_run_started`. -/
def collabStartFails : Collab :=
  { component := "LOCAL_TO_S3"
    uuids := fun n => "u" ++ natRepr n
    list_files := Outcome.ok [fileA]
    already_loaded := fun _ => Outcome.ok []
    upload := fun f => Outcome.ok ("s3://bucket/" ++ f.name)
    archive := fun _ => Outcome.ok ()
    emit_run_started := Outcome.exn "snowflake down"
    emit_run_finished := Outcome.ok ()
    emit_ingest_success := fun _ => Outcome.ok ()
    emit_ingest_failure := fun _ => Outcome.ok () }

/-- Witness for C2 (amended): a raising `log_run_started` makes `run()`
re-raise the same exception. -/
theorem infra_exceptions_propagate_witness :
    (IngestionPipeline.run collabStartFails).fatal = some "snowflake down" :=
  (infra_exceptions_propagate collabStartFails "snowflake down").1 rfl

/-- Collaborators where `log_ingest_success` raises for every file but
everything else succeeds. -/
def collabSuccessLogFails : Collab :=
  { component := "LOCAL_TO_S3"
    uuids := fun n => "u" ++ natRepr n
    list_files := Outcome.ok [fileA]
    already_loaded := fun _ => Outcome.ok []
    upload := fun f => Outcome.ok ("s3://bucket/" ++ f.name)
    archive := fun _ => Outcome.ok ()
    emit_run_started := Outcome.ok ()
    emit_run_finished := Outcome.ok ()
    emit_ingest_success := fun _ => Outcome.exn "db down"
    emit_ingest_failure := fun _ => Outcome.ok () }

/-- Counterexample to C2 as stated: an exception raised by
`log_ingest_success` does NOT propagate out of `run()` — the run
returns normally, the file is logged as an ingest failure (with the
emission exception as `error_details`), and a finishing event is
written. -/
theorem emit_success_exn_caught_counterexample :
    collabSuccessLogFails.emit_ingest_success fileA = Outcome.exn "db down" ∧
    (IngestionPipeline.run collabSuccessLogFails).fatal = none ∧
    (IngestionPipeline.run collabSuccessLogFails).events.filter LogCall.isIngestFailure =
      [failCall collabSuccessLogFails "u0" "u2" fileA "db down"] ∧
    (IngestionPipeline.run collabSuccessLogFails).events.filter LogCall.isRunFinished ≠
      [] := by
  refine ⟨rfl, rfl, by decide, by decide⟩

theorem fileOk_of_all_ok (c : Collab) (f : FileIdentity) (d : String)
    (hu : c.upload f = Outcome.ok d)
    (hs : c.emit_ingest_success f = Outcome.ok ())
    (ha : c.archive f = Outcome.ok ()) : fileOk c f = true := by
  unfold fileOk
  rw [hu, hs, ha]

theorem fileOk_upload_exn (c : Collab) (f : FileIdentity) (e : String)
    (hu : c.upload f = Outcome.exn e) : fileOk c f = false := by
  unfold fileOk
  rw [hu]

theorem fileOk_archive_exn (c : Collab) (f : FileIdentity) (d e : String)
    (hu : c.upload f = Outcome.ok d)
    (hs : c.emit_ingest_success f = Outcome.ok ())
    (ha : c.archive f = Outcome.exn e) : fileOk c f = false := by
  unfold fileOk
  rw [hu, hs, ha]

theorem succ_not_fail (ev : LogCall) (h : ev.isIngestSuccess = true) :
    ev.isIngestFailure = false := by
  cases ev <;> simp_all [LogCall.isIngestSuccess, LogCall.isIngestFailure]

theorem loopEvents_all_success_filters (c : Collab) (rid : String)
    (l : List FileIdentity) (n : Nat)
    (h : ∀ f ∈ l, (∃ d, c.upload f = Outcome.ok d) ∧
      c.emit_ingest_success f = Outcome.ok () ∧ c.archive f = Outcome.ok ()) :
    (loopEvents c rid n l).filter LogCall.isIngestFailure = [] ∧
    (loopEvents c rid n l).filter LogCall.isIngestSuccess = loopEvents c rid n l ∧
    (loopEvents c rid n l).filter LogCall.isRunFinished = [] := by
  have hall := loopEvents_all_success c rid l n h
  refine ⟨List.filter_eq_nil_iff.mpr ?_, List.filter_eq_self.mpr ?_,
    List.filter_eq_nil_iff.mpr ?_⟩
  · intro ev hev
    rw [succ_not_fail ev (hall.1 ev hev)]
    simp
  · intro ev hev
    exact hall.1 ev hev
  · intro ev hev
    have hor : (ev.isIngestSuccess || ev.isIngestFailure) = true := by
      rw [hall.1 ev hev]; simp
    rw [ingest_not_runFinished ev hor]
    simp

/-- C1: in a run over new files where exactly one file's upload raises
and every other collaborator call succeeds, `run()` returns normally,
exactly one `INGEST/FAILURE` event is emitted — for the failing file,
with the exception's string representation as `error_details` — one
`INGEST/SUCCESS` event per remaining file is emitted, and the
`FINISHED` event has status `FAILURE` with `files_failure = 1`;
every file is still uploaded (processing is unaffected by the one
failure). -/
theorem upload_failure_isolated (c : Collab) (fs : List FileIdentity)
    (loaded : List String) (as bs : List FileIdentity) (fk : FileIdentity) (e : String)
    (hstart : c.emit_run_started = Outcome.ok ())
    (hlist : c.list_files = Outcome.ok fs)
    (hne : fs.isEmpty = false)
    (hload : c.already_loaded (fs.map FileIdentity.stable_key) = Outcome.ok loaded)
    (hdec : newFiles fs loaded = as ++ fk :: bs)
    (hupas : ∀ f ∈ as, ∃ d, c.upload f = Outcome.ok d)
    (hupbs : ∀ f ∈ bs, ∃ d, c.upload f = Outcome.ok d)
    (hupk : c.upload fk = Outcome.exn e)
    (hsucc : ∀ f, c.emit_ingest_success f = Outcome.ok ())
    (hfail : ∀ f, c.emit_ingest_failure f = Outcome.ok ())
    (harch : ∀ f, c.archive f = Outcome.ok ())
    (hfin : c.emit_run_finished = Outcome.ok ()) :
    (IngestionPipeline.run c).fatal = none ∧
    (IngestionPipeline.run c).events.filter LogCall.isIngestFailure =
      [failCall c (c.uuids 0) (c.uuids (2 + as.length)) fk e] ∧
    ((IngestionPipeline.run c).events.filter LogCall.isIngestSuccess).length =
      as.length + bs.length ∧
    (IngestionPipeline.run c).events.filter LogCall.isRunFinished =
      [LogCall.runFinished (c.uuids (2 + (as ++ fk :: bs).length)) (c.uuids 0)
        c.component "FAILURE" "Pipeline run finished"
        (finishedMeta fs.length (as ++ fk :: bs).length
          (fs.length - (as ++ fk :: bs).length) (as.length + bs.length) 1)] ∧
    (IngestionPipeline.run c).uploads = as ++ fk :: bs := by
  have hfilter : (as ++ fk :: bs).filter (fileOk c) = as ++ bs := by
    rw [List.filter_append, List.filter_cons]
    rw [fileOk_upload_exn c fk e hupk]
    simp only [Bool.false_eq_true, if_false]
    rw [List.filter_eq_self.mpr, List.filter_eq_self.mpr]
    · intro f hf
      obtain ⟨d, hd⟩ := hupbs f hf
      exact fileOk_of_all_ok c f d hd (hsucc f) (harch f)
    · intro f hf
      obtain ⟨d, hd⟩ := hupas f hf
      exact fileOk_of_all_ok c f d hd (hsucc f) (harch f)
  have hR : runLoop c fs loaded =
      ({ events := loopEvents c (c.uuids 0) 2 (as ++ fk :: bs),
         uploads := as ++ fk :: bs,
         archives := (as ++ fk :: bs).filter (archiveReached c),
         fatal := none },
       as.length + bs.length, 1) := by
    unfold runLoop
    rw [hdec]
    rw [processLoop_noFatal c (c.uuids 0) (as ++ fk :: bs) 2 (fun f _ => hfail f)]
    rw [hfilter]
    simp only [Prod.mk.injEq, RunTrace.mk.injEq, List.length_append, List.length_cons]
    refine ⟨trivial, trivial, by omega⟩
  have hrun := run_ok_char c fs loaded hstart hlist hne hload (by rw [hR]) hfin
  have hEvents : loopEvents c (c.uuids 0) 2 (as ++ fk :: bs) =
      loopEvents c (c.uuids 0) 2 as ++
        ([failCall c (c.uuids 0) (c.uuids (2 + as.length)) fk e] ++
          loopEvents c (c.uuids 0) (2 + as.length + 1) bs) := by
    rw [loopEvents_append]
    congr 1
    rw [loopEvents]
    rw [fileEvents_upload_exn c (c.uuids 0) (c.uuids (2 + as.length)) fk e hupk (hfail fk)]
  have hasF := loopEvents_all_success_filters c (c.uuids 0) as 2
    (fun f hf => ⟨hupas f hf, hsucc f, harch f⟩)
  have hbsF := loopEvents_all_success_filters c (c.uuids 0) bs (2 + as.length + 1)
    (fun f hf => ⟨hupbs f hf, hsucc f, harch f⟩)
  have hFin : finCall c fs loaded =
      LogCall.runFinished (c.uuids (2 + (as ++ fk :: bs).length)) (c.uuids 0)
        c.component "FAILURE" "Pipeline run finished"
        (finishedMeta fs.length (as ++ fk :: bs).length
          (fs.length - (as ++ fk :: bs).length) (as.length + bs.length) 1) := by
    unfold finCall
    rw [hdec, hR]
    simp
  rw [hrun]
  refine ⟨rfl, ?_, ?_, ?_, ?_⟩
  · simp only [hR, hEvents, hFin, List.filter_cons, List.filter_append,
      isIngestFailure_startCall, isIngestFailure_failCall, hasF.1, hbsF.1]
    simp [LogCall.isIngestFailure]
  · simp only [hR, hEvents, hFin, List.filter_cons, List.filter_append,
      isIngestSuccess_startCall, isIngestSuccess_failCall, hasF.2.1, hbsF.2.1]
    have h1 := loopEvents_all_success c (c.uuids 0) as 2
      (fun f hf => ⟨hupas f hf, hsucc f, harch f⟩)
    have h2 := loopEvents_all_success c (c.uuids 0) bs (2 + as.length + 1)
      (fun f hf => ⟨hupbs f hf, hsucc f, harch f⟩)
    simp [LogCall.isIngestSuccess, h1.2, h2.2]
  · simp only [hR, hEvents, hFin, List.filter_cons, List.filter_append,
      isRunFinished_startCall, isRunFinished_failCall, hasF.2.2, hbsF.2.2]
    simp [LogCall.isRunFinished]
  · simp only [hR]

/-- Second candidate file for concrete runs. -/
def fileB : FileIdentity := FileIdentity.mk "data/b.csv" 200 2500000

/-- Third candidate file for concrete runs. -/
def fileC : FileIdentity := FileIdentity.mk "data/c.csv" 300 3500000

/-- Collaborators where only the upload of `data/b.csv` raises. -/
def collabOneFail : Collab :=
  { component := "LOCAL_TO_S3"
    uuids := fun n => "u" ++ natRepr n
    list_files := Outcome.ok [fileA, fileB, fileC]
    already_loaded := fun _ => Outcome.ok []
    upload := fun f =>
      if f.path == "data/b.csv" then Outcome.exn "connection reset"
      else Outcome.ok ("s3://bucket/" ++ f.name)
    archive := fun _ => Outcome.ok ()
    emit_run_started := Outcome.ok ()
    emit_run_finished := Outcome.ok ()
    emit_ingest_success := fun _ => Outcome.ok ()
    emit_ingest_failure := fun _ => Outcome.ok () }

/-- Witness for C1: three new files of which exactly `data/b.csv`
fails its upload. -/
theorem upload_failure_isolated_witness :
    (IngestionPipeline.run collabOneFail).fatal = none ∧
    (IngestionPipeline.run collabOneFail).events.filter LogCall.isIngestFailure =
      [failCall collabOneFail (collabOneFail.uuids 0)
        (collabOneFail.uuids (2 + [fileA].length)) fileB "connection reset"] ∧
    ((IngestionPipeline.run collabOneFail).events.filter LogCall.isIngestSuccess).length =
      [fileA].length + [fileC].length ∧
    (IngestionPipeline.run collabOneFail).events.filter LogCall.isRunFinished =
      [LogCall.runFinished
        (collabOneFail.uuids (2 + ([fileA] ++ fileB :: [fileC]).length))
        (collabOneFail.uuids 0) collabOneFail.component "FAILURE" "Pipeline run finished"
        (finishedMeta [fileA, fileB, fileC].length ([fileA] ++ fileB :: [fileC]).length
          ([fileA, fileB, fileC].length - ([fileA] ++ fileB :: [fileC]).length)
          ([fileA].length + [fileC].length) 1)] ∧
    (IngestionPipeline.run collabOneFail).uploads = [fileA] ++ fileB :: [fileC] :=
  upload_failure_isolated collabOneFail [fileA, fileB, fileC] [] [fileA] [fileC] fileB
    "connection reset" rfl rfl rfl rfl (by decide)
    (by intro f hf; rcases List.mem_singleton.1 hf with rfl
        exact ⟨"s3://bucket/a.csv", by decide⟩)
    (by intro f hf; rcases List.mem_singleton.1 hf with rfl
        exact ⟨"s3://bucket/c.csv", by decide⟩)
    (by decide) (fun _ => rfl) (fun _ => rfl) (fun _ => rfl) rfl

/-- C3 (amended): when a file's upload succeeds and its
`INGEST/SUCCESS` event is logged but the subsequent archive call
raises, the per-file handler catches the exception and the file IS
flipped to a failure: it is counted in `files_failure` (not
`files_success`) in the `FINISHED` summary, and an `INGEST/FAILURE`
event is additionally emitted for it (after its success event). -/
theorem archive_failure_flips (c : Collab) (fs : List FileIdentity)
    (loaded : List String) (as bs : List FileIdentity) (g : FileIdentity) (d e : String)
    (hstart : c.emit_run_started = Outcome.ok ())
    (hlist : c.list_files = Outcome.ok fs)
    (hne : fs.isEmpty = false)
    (hload : c.already_loaded (fs.map FileIdentity.stable_key) = Outcome.ok loaded)
    (hdec : newFiles fs loaded = as ++ g :: bs)
    (hupas : ∀ f ∈ as, ∃ dd, c.upload f = Outcome.ok dd)
    (hupbs : ∀ f ∈ bs, ∃ dd, c.upload f = Outcome.ok dd)
    (hupg : c.upload g = Outcome.ok d)
    (hsucc : ∀ f, c.emit_ingest_success f = Outcome.ok ())
    (hfail : ∀ f, c.emit_ingest_failure f = Outcome.ok ())
    (harchas : ∀ f ∈ as, c.archive f = Outcome.ok ())
    (harchbs : ∀ f ∈ bs, c.archive f = Outcome.ok ())
    (harchg : c.archive g = Outcome.exn e)
    (hfin : c.emit_run_finished = Outcome.ok ()) :
    (IngestionPipeline.run c).fatal = none ∧
    succCall c (c.uuids 0) (c.uuids (2 + as.length)) g d ∈
      (IngestionPipeline.run c).events ∧
    (IngestionPipeline.run c).events.filter LogCall.isIngestFailure =
      [failCall c (c.uuids 0) (c.uuids (2 + as.length)) g e] ∧
    (IngestionPipeline.run c).events.filter LogCall.isRunFinished =
      [LogCall.runFinished (c.uuids (2 + (as ++ g :: bs).length)) (c.uuids 0)
        c.component "FAILURE" "Pipeline run finished"
        (finishedMeta fs.length (as ++ g :: bs).length
          (fs.length - (as ++ g :: bs).length) (as.length + bs.length) 1)] := by
  have hfilter : (as ++ g :: bs).filter (fileOk c) = as ++ bs := by
    rw [List.filter_append, List.filter_cons]
    rw [fileOk_archive_exn c g d e hupg (hsucc g) harchg]
    simp only [Bool.false_eq_true, if_false]
    rw [List.filter_eq_self.mpr, List.filter_eq_self.mpr]
    · intro f hf
      obtain ⟨dd, hd⟩ := hupbs f hf
      exact fileOk_of_all_ok c f dd hd (hsucc f) (harchbs f hf)
    · intro f hf
      obtain ⟨dd, hd⟩ := hupas f hf
      exact fileOk_of_all_ok c f dd hd (hsucc f) (harchas f hf)
  have hR : runLoop c fs loaded =
      ({ events := loopEvents c (c.uuids 0) 2 (as ++ g :: bs),
         uploads := as ++ g :: bs,
         archives := (as ++ g :: bs).filter (archiveReached c),
         fatal := none },
       as.length + bs.length, 1) := by
    unfold runLoop
    rw [hdec]
    rw [processLoop_noFatal c (c.uuids 0) (as ++ g :: bs) 2 (fun f _ => hfail f)]
    rw [hfilter]
    simp only [Prod.mk.injEq, RunTrace.mk.injEq, List.length_append, List.length_cons]
    refine ⟨trivial, trivial, by omega⟩
  have hrun := run_ok_char c fs loaded hstart hlist hne hload (by rw [hR]) hfin
  have hEvents : loopEvents c (c.uuids 0) 2 (as ++ g :: bs) =
      loopEvents c (c.uuids 0) 2 as ++
        ([succCall c (c.uuids 0) (c.uuids (2 + as.length)) g d,
          failCall c (c.uuids 0) (c.uuids (2 + as.length)) g e] ++
          loopEvents c (c.uuids 0) (2 + as.length + 1) bs) := by
    rw [loopEvents_append]
    congr 1
    rw [loopEvents]
    rw [fileEvents_archive_exn c (c.uuids 0) (c.uuids (2 + as.length)) g d e hupg
      (hsucc g) harchg (hfail g)]
  have hasF := loopEvents_all_success_filters c (c.uuids 0) as 2
    (fun f hf => ⟨hupas f hf, hsucc f, harchas f hf⟩)
  have hbsF := loopEvents_all_success_filters c (c.uuids 0) bs (2 + as.length + 1)
    (fun f hf => ⟨hupbs f hf, hsucc f, harchbs f hf⟩)
  have hFin : finCall c fs loaded =
      LogCall.runFinished (c.uuids (2 + (as ++ g :: bs).length)) (c.uuids 0)
        c.component "FAILURE" "Pipeline run finished"
        (finishedMeta fs.length (as ++ g :: bs).length
          (fs.length - (as ++ g :: bs).length) (as.length + bs.length) 1) := by
    unfold finCall
    rw [hdec, hR]
    simp
  rw [hrun]
  refine ⟨rfl, ?_, ?_, ?_⟩
  · rw [hR]
    dsimp only
    rw [hEvents]
    simp
  · simp only [hR, hEvents, hFin, List.filter_cons, List.filter_append,
      isIngestFailure_startCall, isIngestFailure_failCall, isIngestFailure_succCall,
      hasF.1, hbsF.1]
    simp [LogCall.isIngestFailure]
  · simp only [hR, hEvents, hFin, List.filter_cons, List.filter_append,
      isRunFinished_startCall, isRunFinished_failCall, isRunFinished_succCall,
      hasF.2.2, hbsF.2.2]
    simp [LogCall.isRunFinished]

/-- Collaborators where the only file uploads and logs fine but its
archive call raises. -/
def collabArchiveFail : Collab :=
  { component := "LOCAL_TO_S3"
    uuids := fun n => "u" ++ natRepr n
    list_files := Outcome.ok [fileA]
    already_loaded := fun _ => Outcome.ok []
    upload := fun f => Outcome.ok ("s3://bucket/" ++ f.name)
    archive := fun _ => Outcome.exn "disk full"
    emit_run_started := Outcome.ok ()
    emit_run_finished := Outcome.ok ()
    emit_ingest_success := fun _ => Outcome.ok ()
    emit_ingest_failure := fun _ => Outcome.ok () }

/-- Counterexample to C3 as stated: the upload of `data/a.csv` succeeds
and its success event is logged, then archiving raises — and the
`FINISHED` summary reports `files_success = 0`, `files_failure = 1`:
the archive failure DOES flip the file from success to failure. -/
theorem archive_flip_counterexample :
    collabArchiveFail.archive fileA = Outcome.exn "disk full" ∧
    (IngestionPipeline.run collabArchiveFail).events.filter LogCall.isIngestSuccess =
      [succCall collabArchiveFail "u0" "u2" fileA "s3://bucket/a.csv"] ∧
    (IngestionPipeline.run collabArchiveFail).events.filter LogCall.isRunFinished =
      [LogCall.runFinished "u3" "u0" "LOCAL_TO_S3" "FAILURE" "Pipeline run finished"
        (finishedMeta 1 1 0 0 1)] := by
  refine ⟨rfl, by decide, by decide⟩

/-- Witness for C3 (amended) at the concrete one-file input. -/
theorem archive_failure_flips_witness :
    (IngestionPipeline.run collabArchiveFail).fatal = none ∧
    succCall collabArchiveFail (collabArchiveFail.uuids 0)
      (collabArchiveFail.uuids (2 + List.length ([] : List FileIdentity))) fileA
      "s3://bucket/a.csv" ∈ (IngestionPipeline.run collabArchiveFail).events ∧
    (IngestionPipeline.run collabArchiveFail).events.filter LogCall.isIngestFailure =
      [failCall collabArchiveFail (collabArchiveFail.uuids 0)
        (collabArchiveFail.uuids (2 + List.length ([] : List FileIdentity))) fileA
        "disk full"] ∧
    (IngestionPipeline.run collabArchiveFail).events.filter LogCall.isRunFinished =
      [LogCall.runFinished
        (collabArchiveFail.uuids (2 + (([] : List FileIdentity) ++ fileA :: []).length))
        (collabArchiveFail.uuids 0) collabArchiveFail.component "FAILURE"
        "Pipeline run finished"
        (finishedMeta [fileA].length (([] : List FileIdentity) ++ fileA :: []).length
          ([fileA].length - (([] : List FileIdentity) ++ fileA :: []).length)
          (List.length ([] : List FileIdentity) + List.length ([] : List FileIdentity))
          1)] :=
  archive_failure_flips collabArchiveFail [fileA] [] [] [] fileA "s3://bucket/a.csv"
    "disk full" rfl rfl rfl rfl (by decide)
    (by intro f hf; cases hf) (by intro f hf; cases hf) (by decide)
    (fun _ => rfl) (fun _ => rfl)
    (by intro f hf; cases hf) (by intro f hf; cases hf) rfl rfl

theorem allowed_ids_nodup (c : Collab) (hinj : Function.Injective c.uuids) (N : Nat) :
    (c.uuids 1 ::
      ((List.range N).map (fun i => c.uuids (2 + i)) ++ [c.uuids (2 + N)])).Nodup := by
  have hinj2 : Function.Injective (fun i => c.uuids (2 + i)) := by
    intro a b h
    have := hinj h
    omega
  rw [List.nodup_cons]
  constructor
  · intro hmem
    rcases List.mem_append.1 hmem with h | h
    · rw [List.mem_map] at h
      obtain ⟨i, _, hival⟩ := h
      have := hinj hival
      omega
    · rw [List.mem_singleton] at h
      have := hinj h
      omega
  · rw [List.nodup_append]
    refine ⟨List.Nodup.map hinj2 (List.nodup_range N), List.nodup_singleton _, ?_⟩
    intro a ha hb
    rw [List.mem_map] at ha
    obtain ⟨i, hi, hival⟩ := ha
    rw [List.mem_singleton] at hb
    rw [hb] at hival
    have := hinj hival
    rw [List.mem_range] at hi
    omega

/-- C4 (amended): within one run, if the UUID generator never repeats
and the archiver never raises, all emitted `event_id` values are
pairwise distinct — including the run-start and run-finish events —
whatever the other collaborators do.  (When archive raises after the
success event was logged, the file's `INGEST/FAILURE` event reuses the
same `event_id` as its `INGEST/SUCCESS` event — see the
counterexample.) -/
theorem event_ids_nodup (c : Collab) (hinj : Function.Injective c.uuids)
    (harch : ∀ f, c.archive f = Outcome.ok ()) :
    ((IngestionPipeline.run c).events.map LogCall.event_id).Nodup := by
  cases hstart : c.emit_run_started with
  | exn e => rw [run_fatal_start c e hstart]; simp
  | ok u =>
    cases u
    cases hlist : c.list_files with
    | exn e => rw [run_fatal_list c e hstart hlist]; simp
    | ok fs =>
      cases fs with
      | nil =>
        cases hfin : c.emit_run_finished with
        | exn e => rw [run_fatal_finished_empty c e hstart hlist hfin]; simp
        | ok u =>
          cases u
          rw [run_empty_ok c hstart hlist hfin]
          simp only [List.map_cons, List.map_nil, List.nodup_cons, event_id_startCall]
          refine ⟨?_, by simp, by simp⟩
          intro hmem
          simp only [LogCall.event_id, List.mem_singleton, List.mem_cons,
            List.not_mem_nil, or_false] at hmem
          have := hinj hmem
          omega
      | cons f fs =>
        have hne : (f :: fs).isEmpty = false := rfl
        cases hload : c.already_loaded ((f :: fs).map FileIdentity.stable_key) with
        | exn e => rw [run_fatal_load c (f :: fs) e hstart hlist hne hload]; simp
        | ok loaded =>
          have hallow := allowed_ids_nodup c hinj (newFiles (f :: fs) loaded).length
          have hloopids :
              (((runLoop c (f :: fs) loaded).1.events.map LogCall.event_id).Sublist
                ((List.range (newFiles (f :: fs) loaded).length).map
                  (fun i => c.uuids (2 + i)))) :=
            processLoop_ids c (c.uuids 0) (newFiles (f :: fs) loaded) 2
              (fun g _ => harch g)
          cases hloop : (runLoop c (f :: fs) loaded).1.fatal with
          | some e =>
            rw [run_fatal_loop c (f :: fs) loaded e hstart hlist hne hload hloop]
            rw [List.map_cons, event_id_startCall]
            have hsub := (hloopids.trans (List.sublist_append_left _
              [c.uuids (2 + (newFiles (f :: fs) loaded).length)])).cons₂ (c.uuids 1)
            exact List.Nodup.sublist hsub hallow
          | none =>
            cases hfin : c.emit_run_finished with
            | exn e =>
              rw [run_fatal_finished c (f :: fs) loaded e hstart hlist hne hload hloop hfin]
              rw [List.map_cons, event_id_startCall]
              have hsub := (hloopids.trans (List.sublist_append_left _
                [c.uuids (2 + (newFiles (f :: fs) loaded).length)])).cons₂ (c.uuids 1)
              exact List.Nodup.sublist hsub hallow
            | ok u =>
              cases u
              rw [run_ok_char c (f :: fs) loaded hstart hlist hne hload hloop hfin]
              rw [List.map_cons, event_id_startCall, List.map_append]
              have hfid : [(finCall c (f :: fs) loaded).event_id] =
                  [c.uuids (2 + (newFiles (f :: fs) loaded).length)] := rfl
              rw [show (List.map LogCall.event_id [finCall c (f :: fs) loaded]) =
                [c.uuids (2 + (newFiles (f :: fs) loaded).length)] from rfl]
              have hsub := (hloopids.append
                (List.Sublist.refl
                  [c.uuids (2 + (newFiles (f :: fs) loaded).length)])).cons₂ (c.uuids 1)
              exact List.Nodup.sublist hsub hallow

/-- Collaborators identical to `collabArchiveFail` except that the UUID
stream is `n ↦ 'u' repeated n times`, which is injective. -/
def collabDupIds : Collab :=
  { component := "LOCAL_TO_S3"
    uuids := fun n => String.mk (List.replicate n 'u')
    list_files := Outcome.ok [fileA]
    already_loaded := fun _ => Outcome.ok []
    upload := fun f => Outcome.ok ("s3://bucket/" ++ f.name)
    archive := fun _ => Outcome.exn "disk full"
    emit_run_started := Outcome.ok ()
    emit_run_finished := Outcome.ok ()
    emit_ingest_success := fun _ => Outcome.ok ()
    emit_ingest_failure := fun _ => Outcome.ok () }

/-- Counterexample to C4 as stated: with an injective UUID generator
but a raising archiver, one run emits two events sharing an
`event_id` — the file's `INGEST/SUCCESS` event and the
`INGEST/FAILURE` event logged when its archive call raised. -/
theorem event_id_collision_counterexample :
    Function.Injective collabDupIds.uuids ∧
    ¬ ((IngestionPipeline.run collabDupIds).events.map LogCall.event_id).Nodup := by
  constructor
  · intro a b h
    simp only [collabDupIds] at h
    have hlen := congrArg (fun s => s.data.length) h
    simpa using hlen
  · decide

/-- Witness for C4 (amended): the §8 scenario run has pairwise-distinct
event ids. -/
theorem event_ids_nodup_witness :
    ((IngestionPipeline.run scenarioCollab).events.map LogCall.event_id).Nodup :=
  event_ids_nodup scenarioCollab
    (by
      intro a b h
      simp only [scenarioCollab] at h
      have hdata := congrArg String.data h
      simp only [String.data_append] at hdata
      simp only [List.singleton_append, List.cons.injEq, true_and] at hdata
      exact natRepr_injective (String.ext hdata))
    (fun _ => rfl)

@[simp] theorem isRunFinished_finCall (c : Collab) (fs : List FileIdentity)
    (loaded : List String) : (finCall c fs loaded).isRunFinished = true := rfl

@[simp] theorem isIngestFailure_finCall (c : Collab) (fs : List FileIdentity)
    (loaded : List String) : (finCall c fs loaded).isIngestFailure = false := rfl

@[simp] theorem isIngestSuccess_finCall (c : Collab) (fs : List FileIdentity)
    (loaded : List String) : (finCall c fs loaded).isIngestSuccess = false := rfl

theorem processLoop_filter_ingestFailure_runLoop (c : Collab) (fs : List FileIdentity)
    (loaded : List String) (h : (runLoop c fs loaded).1.fatal = none) :
    ((runLoop c fs loaded).1.events.filter LogCall.isIngestFailure).length =
      (runLoop c fs loaded).2.2 :=
  processLoop_failure_event_count c (c.uuids 0) (newFiles fs loaded) 2 h

/-- C6: a completed run that discovered at least one file emits exactly
one `FINISHED` run event; its status is `SUCCESS` iff zero per-file
failures occurred (the emitted `INGEST/FAILURE` events number exactly
`files_failure`), and its metadata consists of exactly the five summary
counters `files_found`, `files_new`, `files_skipped`, `files_success`
and `files_failure`, which add up (`files_success + files_failure =
files_new`, `files_skipped = files_found - files_new`). -/
theorem run_finished_summary (c : Collab) (fs : List FileIdentity) (loaded : List String)
    (hstart : c.emit_run_started = Outcome.ok ())
    (hlist : c.list_files = Outcome.ok fs)
    (hne : fs.isEmpty = false)
    (hload : c.already_loaded (fs.map FileIdentity.stable_key) = Outcome.ok loaded)
    (hfatal : (IngestionPipeline.run c).fatal = none) :
    (IngestionPipeline.run c).events.filter LogCall.isRunFinished =
      [LogCall.runFinished (c.uuids (2 + (newFiles fs loaded).length)) (c.uuids 0)
        c.component
        (if (runLoop c fs loaded).2.2 = 0 then "SUCCESS" else "FAILURE")
        "Pipeline run finished"
        (finishedMeta fs.length (newFiles fs loaded).length
          (fs.length - (newFiles fs loaded).length)
          (runLoop c fs loaded).2.1 (runLoop c fs loaded).2.2)] ∧
    (runLoop c fs loaded).2.1 + (runLoop c fs loaded).2.2 =
      (newFiles fs loaded).length ∧
    ((IngestionPipeline.run c).events.filter LogCall.isIngestFailure).length =
      (runLoop c fs loaded).2.2 := by
  cases hloop : (runLoop c fs loaded).1.fatal with
  | some e =>
    rw [run_fatal_loop c fs loaded e hstart hlist hne hload hloop] at hfatal
    simp at hfatal
  | none =>
    cases hfin : c.emit_run_finished with
    | exn e =>
      rw [run_fatal_finished c fs loaded e hstart hlist hne hload hloop hfin] at hfatal
      simp at hfatal
    | ok u =>
      cases u
      rw [run_ok_char c fs loaded hstart hlist hne hload hloop hfin]
      refine ⟨?_, ?_, ?_⟩
      · simp only [List.filter_cons, List.filter_append, isRunFinished_startCall,
          isRunFinished_finCall]
        rw [show ((runLoop c fs loaded).1.events.filter LogCall.isRunFinished) = []
          from processLoop_filter_runFinished c (c.uuids 0) (newFiles fs loaded) 2]
        simp [finCall]
      · exact processLoop_counts c (c.uuids 0) (newFiles fs loaded) 2 hloop
      · simp only [List.filter_cons, List.filter_append, isIngestFailure_startCall,
          isIngestFailure_finCall, Bool.false_eq_true, if_false, List.filter_nil,
          List.append_nil]
        exact processLoop_filter_ingestFailure_runLoop c fs loaded hloop

/-- The candidate list of the §8 scenario. -/
def scnList : List FileIdentity :=
  [FileIdentity.mk "a.csv" 100 1000000, FileIdentity.mk "b.csv" 200 2000000,
   FileIdentity.mk "c.parquet" 300 3000000]

/-- The already-loaded key set of the §8 scenario. -/
def scnLoaded : List String := ["b.csv|200|2"]

/-- Witness for C6: the §8 scenario run emits exactly one finishing
event carrying the five summary counters. -/
theorem run_finished_summary_witness :
    (IngestionPipeline.run scenarioCollab).events.filter LogCall.isRunFinished =
      [LogCall.runFinished
        (scenarioCollab.uuids (2 + (newFiles scnList scnLoaded).length))
        (scenarioCollab.uuids 0) scenarioCollab.component
        (if (runLoop scenarioCollab scnList scnLoaded).2.2 = 0 then "SUCCESS"
          else "FAILURE")
        "Pipeline run finished"
        (finishedMeta scnList.length (newFiles scnList scnLoaded).length
          (scnList.length - (newFiles scnList scnLoaded).length)
          (runLoop scenarioCollab scnList scnLoaded).2.1
          (runLoop scenarioCollab scnList scnLoaded).2.2)] ∧
    (runLoop scenarioCollab scnList scnLoaded).2.1 +
        (runLoop scenarioCollab scnList scnLoaded).2.2 =
      (newFiles scnList scnLoaded).length ∧
    ((IngestionPipeline.run scenarioCollab).events.filter
        LogCall.isIngestFailure).length =
      (runLoop scenarioCollab scnList scnLoaded).2.2 :=
  run_finished_summary scenarioCollab scnList scnLoaded rfl rfl rfl rfl rfl

theorem SF_already_loaded_nil (ks : List String) :
    SnowflakeLoadLogRepository.already_loaded [] ks = [] := by
  unfold SnowflakeLoadLogRepository.already_loaded
  split <;> simp

theorem SF_already_loaded_mem (table : List EventRow) (ks : List String) (k : String) :
    k ∈ SnowflakeLoadLogRepository.already_loaded table ks ↔
      k ∈ ks ∧ ∃ r ∈ table, r.entity_id = k ∧ r.entity_type = "FILE" ∧
        r.event_type = "INGEST" ∧ r.status = "SUCCESS" := by
  unfold SnowflakeLoadLogRepository.already_loaded
  split
  · rename_i hemp
    rw [List.isEmpty_iff] at hemp
    rw [hemp]
    simp
  · rw [List.mem_filter, List.any_eq_true]
    constructor
    · rintro ⟨hk, r, hr, hcond⟩
      simp only [Bool.and_eq_true, beq_iff_eq] at hcond
      exact ⟨hk, r, hr, hcond.1.1.1, hcond.1.1.2, hcond.1.2, hcond.2⟩
    · rintro ⟨hk, r, hr, h1, h2, h3, h4⟩
      refine ⟨hk, r, hr, ?_⟩
      simp only [Bool.and_eq_true, beq_iff_eq]
      exact ⟨⟨⟨h1, h2⟩, h3⟩, h4⟩

theorem archiveReached_of_ok (c : Collab) (f : FileIdentity) (d : String)
    (hu : c.upload f = Outcome.ok d)
    (hs : c.emit_ingest_success f = Outcome.ok ()) : archiveReached c f = true := by
  unfold archiveReached
  rw [hu, hs]

theorem loopEvents_success_mem (c : Collab) (rid : String) :
    ∀ (l : List FileIdentity) (n : Nat) (f : FileIdentity), f ∈ l →
      (∀ g ∈ l, (∃ d, c.upload g = Outcome.ok d) ∧
        c.emit_ingest_success g = Outcome.ok () ∧ c.archive g = Outcome.ok ()) →
      ∃ d i, succCall c rid (c.uuids i) f d ∈ loopEvents c rid n l := by
  intro l
  induction l with
  | nil => intro n f hf; cases hf
  | cons a l ih =>
    intro n f hf hall
    rcases List.mem_cons.1 hf with rfl | hf2
    · obtain ⟨⟨d, hu⟩, hs, ha⟩ := hall f (List.mem_cons_self _ _)
      rw [loopEvents, fileEvents_all_ok c rid (c.uuids n) f d hu hs ha]
      exact ⟨d, n, List.mem_append.2 (Or.inl (List.mem_singleton.2 rfl))⟩
    · obtain ⟨d, i, hmem⟩ := ih (n + 1) f hf2
        (fun g hg => hall g (List.mem_cons_of_mem _ hg))
      rw [loopEvents]
      exact ⟨d, i, List.mem_append.2 (Or.inr hmem)⟩

/-- C5: re-running the pipeline on an unchanged candidate list with the
repository's `already_loaded` answered faithfully from the event log
(run 1 starting from an empty log, run 2 from the log holding run 1's
events) uploads and archives each file at most once across the two
runs — run 1 uploads and archives each file exactly once, run 2
performs no upload and no archive at all — and run 2's `FINISHED`
event reports `files_new = 0`. -/
theorem idempotent_rerun (c c' : Collab) (fs : List FileIdentity)
    (hne : fs.isEmpty = false)
    (hkeys : (fs.map FileIdentity.stable_key).Nodup)
    (hstart1 : c.emit_run_started = Outcome.ok ())
    (hlist1 : c.list_files = Outcome.ok fs)
    (hload1 : c.already_loaded (fs.map FileIdentity.stable_key) =
      Outcome.ok (SnowflakeLoadLogRepository.already_loaded []
        (fs.map FileIdentity.stable_key)))
    (hup : ∀ f ∈ fs, ∃ d, c.upload f = Outcome.ok d)
    (hsucc : ∀ f, c.emit_ingest_success f = Outcome.ok ())
    (hfail : ∀ f, c.emit_ingest_failure f = Outcome.ok ())
    (harch : ∀ f, c.archive f = Outcome.ok ())
    (hfin1 : c.emit_run_finished = Outcome.ok ())
    (hstart2 : c'.emit_run_started = Outcome.ok ())
    (hlist2 : c'.list_files = Outcome.ok fs)
    (hload2 : c'.already_loaded (fs.map FileIdentity.stable_key) =
      Outcome.ok (SnowflakeLoadLogRepository.already_loaded
        ((IngestionPipeline.run c).events.map toRow)
        (fs.map FileIdentity.stable_key)))
    (hfin2 : c'.emit_run_finished = Outcome.ok ()) :
    (IngestionPipeline.run c).uploads = fs ∧
    (IngestionPipeline.run c).archives = fs ∧
    (IngestionPipeline.run c').uploads = [] ∧
    (IngestionPipeline.run c').archives = [] ∧
    (∀ f, ((IngestionPipeline.run c).uploads ++
      (IngestionPipeline.run c').uploads).count f ≤ 1) ∧
    (∀ f, ((IngestionPipeline.run c).archives ++
      (IngestionPipeline.run c').archives).count f ≤ 1) ∧
    (IngestionPipeline.run c').events.filter LogCall.isRunFinished =
      [LogCall.runFinished (c'.uuids 2) (c'.uuids 0) c'.component "SUCCESS"
        "Pipeline run finished" (finishedMeta fs.length 0 fs.length 0 0)] := by
  -- run 1 characterisation
  rw [SF_already_loaded_nil] at hload1
  have hnew1 : newFiles fs [] = fs := by
    unfold newFiles
    rw [List.filter_eq_self.mpr]
    intro f _
    simp
  have hR1 : runLoop c fs [] =
      ({ events := loopEvents c (c.uuids 0) 2 fs, uploads := fs,
         archives := fs, fatal := none }, fs.length, 0) := by
    unfold runLoop
    rw [hnew1]
    rw [processLoop_noFatal c (c.uuids 0) fs 2 (fun f _ => hfail f)]
    have hok : fs.filter (fileOk c) = fs := by
      rw [List.filter_eq_self.mpr]
      intro f hf
      obtain ⟨d, hd⟩ := hup f hf
      exact fileOk_of_all_ok c f d hd (hsucc f) (harch f)
    have har : fs.filter (archiveReached c) = fs := by
      rw [List.filter_eq_self.mpr]
      intro f hf
      obtain ⟨d, hd⟩ := hup f hf
      exact archiveReached_of_ok c f d hd (hsucc f)
    rw [hok, har]
    simp
  have hrun1 := run_ok_char c fs [] hstart1 hlist1 hne hload1 (by rw [hR1]) hfin1
  have hup1 : (IngestionPipeline.run c).uploads = fs := by rw [hrun1, hR1]
  have har1 : (IngestionPipeline.run c).archives = fs := by rw [hrun1, hR1]
  -- every key now has a FILE/INGEST/SUCCESS row in run 1's event rows
  have hrow : ∀ f ∈ fs, f.stable_key ∈
      SnowflakeLoadLogRepository.already_loaded
        ((IngestionPipeline.run c).events.map toRow)
        (fs.map FileIdentity.stable_key) := by
    intro f hf
    rw [SF_already_loaded_mem]
    refine ⟨List.mem_map_of_mem _ hf, ?_⟩
    obtain ⟨d, i, hmem⟩ := loopEvents_success_mem c (c.uuids 0) fs 2 f hf
      (fun g hg => ⟨hup g hg, hsucc g, harch g⟩)
    refine ⟨toRow (succCall c (c.uuids 0) (c.uuids i) f d), ?_, rfl, rfl, rfl, rfl⟩
    apply List.mem_map_of_mem
    rw [hrun1]
    dsimp only
    rw [hR1]
    dsimp only
    exact List.mem_cons_of_mem _ (List.mem_append.2 (Or.inl hmem))
  -- run 2: nothing is new
  have hnew2 : newFiles fs
      (SnowflakeLoadLogRepository.already_loaded
        ((IngestionPipeline.run c).events.map toRow)
        (fs.map FileIdentity.stable_key)) = [] := by
    unfold newFiles
    rw [List.filter_eq_nil_iff]
    intro f hf
    simp only [decide_eq_true_eq]
    intro hnot
    exact hnot (hrow f hf)
  have hR2 : runLoop c' fs
      (SnowflakeLoadLogRepository.already_loaded
        ((IngestionPipeline.run c).events.map toRow)
        (fs.map FileIdentity.stable_key)) =
      ({ events := [], uploads := [], archives := [], fatal := none }, 0, 0) := by
    unfold runLoop
    rw [hnew2]
    rfl
  have hrun2 := run_ok_char c' fs
    (SnowflakeLoadLogRepository.already_loaded
      ((IngestionPipeline.run c).events.map toRow)
      (fs.map FileIdentity.stable_key))
    hstart2 hlist2 hne hload2 (by rw [hR2]) hfin2
  have hup2 : (IngestionPipeline.run c').uploads = [] := by rw [hrun2, hR2]
  have har2 : (IngestionPipeline.run c').archives = [] := by rw [hrun2, hR2]
  have hfsnodup : fs.Nodup := List.Nodup.of_map _ hkeys
  have hFin2 : finCall c' fs
      (SnowflakeLoadLogRepository.already_loaded
        ((IngestionPipeline.run c).events.map toRow)
        (fs.map FileIdentity.stable_key)) =
      LogCall.runFinished (c'.uuids 2) (c'.uuids 0) c'.component "SUCCESS"
        "Pipeline run finished" (finishedMeta fs.length 0 fs.length 0 0) := by
    unfold finCall
    rw [hnew2, hR2]
    simp
  refine ⟨hup1, har1, hup2, har2, ?_, ?_, ?_⟩
  · intro f
    rw [hup1, hup2, List.append_nil]
    exact List.nodup_iff_count_le_one.1 hfsnodup f
  · intro f
    rw [har1, har2, List.append_nil]
    exact List.nodup_iff_count_le_one.1 hfsnodup f
  · rw [hrun2]
    dsimp only
    rw [hR2]
    dsimp only
    rw [hFin2]
    rfl

/-- First run of the idempotency witness: empty prior log, all calls
succeed. -/
def collabRerun1 : Collab :=
  { component := "LOCAL_TO_S3"
    uuids := fun n => "u" ++ natRepr n
    list_files := Outcome.ok [fileA, fileB]
    already_loaded := fun ks =>
      Outcome.ok (SnowflakeLoadLogRepository.already_loaded [] ks)
    upload := fun f => Outcome.ok ("s3://bucket/" ++ f.name)
    archive := fun _ => Outcome.ok ()
    emit_run_started := Outcome.ok ()
    emit_run_finished := Outcome.ok ()
    emit_ingest_success := fun _ => Outcome.ok ()
    emit_ingest_failure := fun _ => Outcome.ok () }

/-- Second run of the idempotency witness: the same candidate list, the
dedup query answered from the log rows written by the first run. -/
def collabRerun2 : Collab :=
  { component := "LOCAL_TO_S3"
    uuids := fun n => "v" ++ natRepr n
    list_files := Outcome.ok [fileA, fileB]
    already_loaded := fun ks =>
      Outcome.ok (SnowflakeLoadLogRepository.already_loaded
        ((IngestionPipeline.run collabRerun1).events.map toRow) ks)
    upload := fun f => Outcome.ok ("s3://bucket/" ++ f.name)
    archive := fun _ => Outcome.ok ()
    emit_run_started := Outcome.ok ()
    emit_run_finished := Outcome.ok ()
    emit_ingest_success := fun _ => Outcome.ok ()
    emit_ingest_failure := fun _ => Outcome.ok () }

/-- Witness for C5 at the concrete two-file, two-run input. -/
theorem idempotent_rerun_witness :
    (IngestionPipeline.run collabRerun1).uploads = [fileA, fileB] ∧
    (IngestionPipeline.run collabRerun1).archives = [fileA, fileB] ∧
    (IngestionPipeline.run collabRerun2).uploads = [] ∧
    (IngestionPipeline.run collabRerun2).archives = [] ∧
    (∀ f, ((IngestionPipeline.run collabRerun1).uploads ++
      (IngestionPipeline.run collabRerun2).uploads).count f ≤ 1) ∧
    (∀ f, ((IngestionPipeline.run collabRerun1).archives ++
      (IngestionPipeline.run collabRerun2).archives).count f ≤ 1) ∧
    (IngestionPipeline.run collabRerun2).events.filter LogCall.isRunFinished =
      [LogCall.runFinished (collabRerun2.uuids 2) (collabRerun2.uuids 0)
        collabRerun2.component "SUCCESS" "Pipeline run finished"
        (finishedMeta [fileA, fileB].length 0 [fileA, fileB].length 0 0)] :=
  idempotent_rerun collabRerun1 collabRerun2 [fileA, fileB] rfl (by decide)
    rfl rfl rfl
    (by
      intro f hf
      rcases List.mem_cons.1 hf with rfl | hf2
      · exact ⟨"s3://bucket/a.csv", by decide⟩
      · rcases List.mem_singleton.1 hf2 with rfl
        exact ⟨"s3://bucket/b.csv", by decide⟩)
    (fun _ => rfl) (fun _ => rfl) (fun _ => rfl) rfl rfl rfl rfl rfl
